import Mathlib

/-!
Verification of the Nebula agent-orchestration backend against its
natural-language specification.  The Python sources under
`backend/app` are shallowly embedded: JSON data becomes `JValue`,
dictionaries become association lists, async functions become pure
functions (tool adapters and the JSON parser of the standard library
are passed in as oracle parameters), and the scheduler's `while` loop
becomes a fuel-indexed recursion whose fuel exhaustion models
non-termination of the Python loop.
-/

namespace Nebula

/-- JSON-like values: the shape of tool arguments, tool results,
service configs and execution contexts in the Python code.
Python `None` is `null`; numbers are modelled as rationals. -/
inductive JValue where
  | null
  | str (s : String)
  | num (q : ℚ)
  | jbool (b : Bool)
  | obj (fields : List (String × JValue))
  | arr (items : List JValue)

/-- Dictionary lookup on the fields of a JSON object
(first binding wins, like a Python dict with unique keys). -/
def jLook : List (String × JValue) → String → Option JValue
  | [], _ => none
  | (k, v) :: rest, key => if k = key then some v else jLook rest key

/-- Keys of a JSON object in order; empty for non-objects. -/
def keysOf : JValue → List String
  | .obj fs => fs.map Prod.fst
  | _ => []

/-- Python dict update `d[k] = v`: replace the binding in place if the
key exists, otherwise append it (insertion order preserved). -/
def upsert : List (String × JValue) → String → JValue → List (String × JValue)
  | [], key, v => [(key, v)]
  | (k, w) :: rest, key, v =>
      if k = key then (k, v) :: rest else (k, w) :: upsert rest key v

/-- Python `dict.update(other)` applied binding by binding. -/
def upsertAll (base : List (String × JValue)) (extra : List (String × JValue)) :
    List (String × JValue) :=
  extra.foldl (fun acc kv => upsert acc kv.1 kv.2) base

/-- Python truthiness of a JSON value (`if value:`): `None`, `""`,
`0`, `False`, `{}` and `[]` are falsy. -/
def jTruthy : JValue → Bool
  | .null => false
  | .str s => s ≠ ""
  | .num q => q ≠ 0
  | .jbool b => b
  | .obj fs => !fs.isEmpty
  | .arr xs => !xs.isEmpty

/-- Truthiness of `config.get(key)`: a missing key gives `None`,
which is falsy. -/
def pyTruthy : Option JValue → Bool
  | none => false
  | some v => jTruthy v

/- ======================================================================
Permission filter, from `app/core/permissions.py`.
====================================================================== -/

/-- The permission-relevant part of `app/models/user.py`'s `User`.
A department that is `None` or the empty string in Python (both falsy
in every place the permission code reads it) is modelled as `none`. -/
structure EmUser where
  id : String
  is_superuser : Bool
  department : Option String
  roles : List String

/-- Catalog `Tool` row (`app/models/tool.py`): the fields read by the
permission filter and the tool executor, plus the rolling statistics.
`created_by` is a nullable foreign key. -/
structure EmTool where
  name : String
  tool_type : String
  service_config : List (String × JValue)
  status : String
  visibility : String
  allowed_departments : List String
  allowed_roles : List String
  created_by : Option String
  call_count : Nat
  avg_latency_ms : ℚ
  success_rate : ℚ

/-- `Skill` row (`app/models/skill.py`): permission-relevant fields. -/
structure EmSkill where
  name : String
  visibility : String
  allowed_departments : List String
  allowed_roles : List String
  created_by : Option String

/-- `check_tool_permission(user, tool)` from `app/core/permissions.py`
lines 12-63, translated clause by clause.  `str(tool.created_by) ==
str(user.id)` compares the string forms of the two ids; `created_by =
none` (Python `None`) never equals a user id. -/
def check_tool_permission (user : Option EmUser) (tool : EmTool) : Bool :=
  if tool.visibility = "public" then true
  else match user with
  | none => false
  | some u =>
    if u.is_superuser then true
    else if tool.visibility = "private" then
      match tool.created_by with
      | some c => c = u.id
      | none => false
    else if tool.visibility = "internal" then
      if !tool.allowed_departments.isEmpty &&
          (match u.department with
           | some d => tool.allowed_departments.contains d
           | none => false) then true
      else if !tool.allowed_roles.isEmpty &&
          u.roles.any (tool.allowed_roles.contains ·) then true
      else false
    else false

/-- `check_skill_permission(user, skill)` from `app/core/permissions.py`
lines 66-98: the same rule list over a `Skill` row. -/
def check_skill_permission (user : Option EmUser) (skill : EmSkill) : Bool :=
  if skill.visibility = "public" then true
  else match user with
  | none => false
  | some u =>
    if u.is_superuser then true
    else if skill.visibility = "private" then
      match skill.created_by with
      | some c => c = u.id
      | none => false
    else if skill.visibility = "internal" then
      if !skill.allowed_departments.isEmpty &&
          (match u.department with
           | some d => skill.allowed_departments.contains d
           | none => false) then true
      else if !skill.allowed_roles.isEmpty &&
          u.roles.any (skill.allowed_roles.contains ·) then true
      else false
    else false

/-- The spec's first-match rule list for `may(user, obj)` (spec 4.6),
written from the spec's words over exactly the fields the rules name:
public gives true; anonymous gives false; superuser gives true;
private iff `created_by` equals the user's id; internal iff the user's
department is among the allowed departments or the user's roles
intersect the allowed roles; otherwise false.  The argument tuple
makes the claimed functional dependence explicit. -/
def specMay (user : Option (String × Bool × Option String × List String))
    (visibility : String) (created_by : Option String)
    (allowed_departments allowed_roles : List String) : Bool :=
  if visibility = "public" then true
  else match user with
  | none => false
  | some (uid, sup, dept, roles) =>
    if sup then true
    else if visibility = "private" then
      match created_by with
      | some c => c = uid
      | none => false
    else if visibility = "internal" then
      (match dept with
       | some d => allowed_departments.contains d
       | none => false) || roles.any (allowed_roles.contains ·)
    else false

/-- Projection of a user onto the fields the spec's rules mention. -/
def userFields (u : EmUser) : String × Bool × Option String × List String :=
  (u.id, u.is_superuser, u.department, u.roles)

/- ======================================================================
Tool executor, from `app/engine/tool_executor.py`.
====================================================================== -/

/-- The external collaborators reached by `ToolExecutor` dispatch:
`ModelFactoryAdapter.predict`, `DataWarehouseAdapter.query_template` /
`query_table` and `ExternalAPIAdapter.call`.  Their HTTP behaviour is
outside the core, so they are oracle functions; an `Except.error`
models the adapter raising. -/
structure Adapters where
  predict : Option JValue → Option JValue → JValue → Except String JValue
  queryTemplate : JValue → JValue → Except String JValue
  queryTable : JValue → JValue → Except String JValue
  callExternal : JValue → JValue → JValue → JValue → Except String JValue

/-- The message of `ToolExecutionError(tool_name, message)`:
`Tool '<name>' execution failed: <message>`. -/
def toolExecError (name msg : String) : String :=
  "Tool \x27" ++ name ++ "\x27 execution failed: " ++ msg

/-- `_get_tool(name)`: `None` without a session, else the first
catalog row with this name and status `"active"` (the per-executor
cache only memoises this same lookup). -/
def getToolFromSession (session : Option (List EmTool)) (name : String) :
    Option EmTool :=
  match session with
  | none => none
  | some catalog => catalog.find? (fun t => t.name = name && t.status = "active")

/-- One dispatch step of `ToolExecutor.execute` lines 100-109: route by
`tool.tool_type` to `_execute_ml_model`, `_execute_data_api`,
`_execute_external_api` or `_execute_generic`, including the
`service_config` presence checks (`ValueError` on missing config).
Also returns the list of adapter invocations made. -/
def dispatchTool (adapters : Adapters) (tool : EmTool) (args : JValue) :
    Except String JValue × List String :=
  if tool.tool_type = "ml_model" then
    let model_id := jLook tool.service_config "model_id"
    let endpoint := jLook tool.service_config "endpoint"
    if !pyTruthy model_id && !pyTruthy endpoint then
      (.error "ML model tool requires model_id or endpoint in service_config", [])
    else (adapters.predict model_id endpoint args, ["model_factory.predict"])
  else if tool.tool_type = "data_api" then
    let query_template := jLook tool.service_config "query_template"
    let table_name := jLook tool.service_config "table_name"
    if pyTruthy query_template then
      (adapters.queryTemplate (query_template.getD .null) args,
       ["data_warehouse.query_template"])
    else if pyTruthy table_name then
      (adapters.queryTable (table_name.getD .null) args,
       ["data_warehouse.query_table"])
    else (.error "Data API tool requires query_template or table_name", [])
  else if tool.tool_type = "external_api" then
    let url := jLook tool.service_config "url"
    let method := (jLook tool.service_config "method").getD (.str "POST")
    let headers := (jLook tool.service_config "headers").getD (.obj [])
    if !pyTruthy url then
      (.error "External API tool requires url in service_config", [])
    else (adapters.callExternal (url.getD .null) method headers args,
          ["external_api.call"])
  else
    (.ok (.obj [("tool", .str tool.name), ("status", .str "executed"),
                ("input", args),
                ("message", .str "Generic tool execution - implement specific handler")]),
     [])

/-- `ToolExecutor._update_statistics` lines 194-227: the running-average
update of `call_count`, `avg_latency_ms` and `success_rate`, skipped
when the executor has no session.  `latency` is the measured latency in
milliseconds for this dispatch. -/
def updateStatistics (hasSession : Bool) (tool : EmTool) (latency : ℚ)
    (success : Bool) : EmTool :=
  if !hasSession then tool
  else
    let old_count := tool.call_count
    let new_count := old_count + 1
    let avg :=
      if old_count > 0 then
        (tool.avg_latency_ms * old_count + latency) / new_count
      else latency
    let rate :=
      if old_count > 0 then
        (tool.success_rate * old_count + (if success then 1 else 0)) / new_count
      else (if success then 1 else 0)
    { tool with call_count := new_count, avg_latency_ms := avg, success_rate := rate }

/-- Result of one `ToolExecutor.execute` call: the returned value or
raised error, the session's catalog after the statistics write, and
the adapter calls that were made. -/
structure ExecOut where
  result : Except String JValue
  sessionAfter : Option (List EmTool)
  trace : List String

/-- `ToolExecutor.execute(tool_name, arguments, ...)` lines 63-118:
built-in map first (no statistics), then catalog lookup (fails with
`Tool not found` when the executor has no session or no active row
matches), then dispatch by kind with the statistics update on both
success and failure.  The statistics write replaces the looked-up row
in the catalog (tool names are unique in the catalog). -/
def toolExecutorExecute (builtins : List (String × (JValue → Except String JValue)))
    (session : Option (List EmTool)) (adapters : Adapters)
    (name : String) (args : JValue) (latency : ℚ) : ExecOut :=
  match builtins.find? (fun b => b.1 = name) with
  | some b =>
    match b.2 args with
    | .ok v => ⟨.ok v, session, []⟩
    | .error m => ⟨.error (toolExecError name m), session, []⟩
  | none =>
    match getToolFromSession session name with
    | none => ⟨.error (toolExecError name "Tool not found"), session, []⟩
    | some tool =>
      let hasSession := session.isSome
      let upd := fun success =>
        session.map (List.map (fun t =>
          if t.name = name then updateStatistics hasSession tool latency success
          else t))
      match dispatchTool adapters tool args with
      | (.ok v, tr) => ⟨.ok v, upd true, tr⟩
      | (.error m, tr) => ⟨.error (toolExecError name m), upd false, tr⟩

/-- The convenience function `execute_tool(...)` at the bottom of
`tool_executor.py`: it builds a fresh `ToolExecutor(session)` — whose
built-in map is therefore empty — and calls `execute`. -/
def executeToolConvenience (session : Option (List EmTool)) (adapters : Adapters)
    (name : String) (args : JValue) (latency : ℚ) : ExecOut :=
  toolExecutorExecute [] session adapters name args latency

/- ======================================================================
NFC ReAct graph, from `app/engine/nfc_graph.py`.
====================================================================== -/

/-- `ToolCall` from `app/llm/base.py`: id, name, structured arguments. -/
structure ToolCallD where
  id : String
  name : String
  arguments : JValue

/-- A conversation message dict as appended to `state["messages"]`:
keys absent in the Python dict are `none` here. -/
structure MsgD where
  role : String
  content : Option String
  tool_calls : Option (List ToolCallD)
  tool_call_id : Option String
  name : Option String

/-- An entry of `state["tool_results"]` as built by
`execute_tools_node`: the `result` key is present only on success and
the `error` key only on failure. -/
structure ToolResultM where
  tool_call_id : String
  tool_name : String
  result : Option JValue
  success : Bool
  error : Option String

/-- Python `str()` of a tool result as used for the tool-role message
content (`str(result) if not isinstance(result, str) else result`).
A string passes through unchanged; for other values this is an
approximate repr (no theorem depends on its exact spelling). -/
def pyStr : JValue → String
  | .str s => s
  | .null => "None"
  | .jbool true => "True"
  | .jbool false => "False"
  | .num q => toString q.num ++ "/" ++ toString q.den
  | .obj _ => "dict"
  | .arr _ => "list"

/-- `NFCAgentState`: the fields of the agent state that the graph's
node functions and edge predicates read or write. -/
structure NFCState where
  messages : List MsgD
  input : String
  pending_tool_calls : List ToolCallD
  tool_results : List ToolResultM
  final_response : Option String
  reasoning_content : Option String
  iteration : Nat
  max_iterations : Nat
  status : String

/-- `LLMResponse` (`app/llm/base.py` plus the `reasoning_content`
channel the adapters fill in): `tool_calls = []` models Python `None`
or an empty list, both falsy for `has_tool_calls`. -/
structure LLMResponseD where
  content : Option String
  reasoning_content : Option String
  tool_calls : List ToolCallD
  finish_reason : Option String

/-- `LLMResponse.to_message().to_dict()`: an assistant message carrying
the content and, when present, the tool calls. -/
def responseToMessage (resp : LLMResponseD) : MsgD :=
  { role := "assistant", content := resp.content,
    tool_calls := if resp.tool_calls.isEmpty then none else some resp.tool_calls,
    tool_call_id := none, name := none }

/-- `think_node` lines 120-181, given the gateway's response: on tool
calls it appends the assistant message, sets the pending calls,
increments the iteration and moves to `tool_calling`; otherwise it
stores the final response and finishes.  (The LangGraph partial update
is applied to the state; `messages` accumulates by appending.) -/
def thinkNode (state : NFCState) (resp : LLMResponseD) : NFCState :=
  if !resp.tool_calls.isEmpty then
    { state with
      pending_tool_calls := resp.tool_calls,
      messages := state.messages ++ [responseToMessage resp],
      status := "tool_calling",
      iteration := state.iteration + 1,
      reasoning_content := resp.reasoning_content }
  else
    { state with
      final_response := resp.content,
      messages := state.messages ++ [responseToMessage resp],
      status := "done",
      pending_tool_calls := [],
      reasoning_content := resp.reasoning_content }

/-- `execute_tools_node` lines 184-239: run every pending tool call
through `execute_tool` — which is invoked without a database session —
collecting a result entry and a tool-role message per call; then clear
the pending list and move to `validating`.  There is no permission
check anywhere in this node. -/
def executeToolsNode (adapters : Adapters) (state : NFCState) : NFCState :=
  let step := fun (call : ToolCallD) =>
    match (executeToolConvenience none adapters call.name call.arguments 0).result with
    | .ok v =>
      ((⟨call.id, call.name, some v, true, none⟩ : ToolResultM),
       (⟨"tool", some (pyStr v), none, some call.id, some call.name⟩ : MsgD))
    | .error m =>
      ((⟨call.id, call.name, none, false, some m⟩ : ToolResultM),
       (⟨"tool", some ("Error: " ++ m), none, some call.id, some call.name⟩ : MsgD))
  let pairs := state.pending_tool_calls.map step
  { state with
    tool_results := pairs.map Prod.fst,
    messages := state.messages ++ pairs.map Prod.snd,
    pending_tool_calls := [],
    status := "validating" }

/-- `should_continue` lines 313-327: route the think node's outcome. -/
def shouldContinue (state : NFCState) : String :=
  if state.status = "tool_calling" && state.iteration < state.max_iterations then
    "execute_tools"
  else if state.status = "done" then "respond"
  else "respond"

/-- `after_validation` lines 338-348: loop back to think below the
iteration cap, otherwise respond. -/
def afterValidation (state : NFCState) : String :=
  if state.iteration < state.max_iterations then "think" else "respond"

/-- `respond_node` lines 292-298: the only state change is
`status = "done"`; in particular `final_response` is left untouched. -/
def respondNode (state : NFCState) : NFCState :=
  { state with status := "done" }

/-- The content of the last assistant message in a message list, if
any: what the spec calls the "last known assistant content". -/
def lastAssistantContent (messages : List MsgD) : Option String :=
  match (messages.filter (fun m => m.role = "assistant")).getLast? with
  | some m => m.content
  | none => none

/- ======================================================================
DAG scheduler and parallel executor, from `app/engine/executor.py`.
====================================================================== -/

/-- The scheduling view of a registered `Task`: its id and its
`dependencies` list.  During `get_execution_order` every task still
has status `PENDING` (statuses change only at run time), so the
scheduler sees exactly this data. -/
structure STask where
  id : String
  deps : List String
deriving DecidableEq

/-- `Task.is_ready(completed)` (executor.py lines 42-44): all listed
dependencies are in the completed set. -/
def isReady (completed : List String) (t : STask) : Bool :=
  t.deps.all (completed.contains ·)

/-- `get_ready_tasks(completed)` lines 162-168: the tasks whose status
is `PENDING` and whose dependencies are completed.  During the pure
ordering pass every task is still `PENDING` — including tasks already
recorded in `completed` — so the filter is only `is_ready`. -/
def getReadyTasks (tasks : List STask) (completed : List String) : List STask :=
  tasks.filter (isReady completed)

/-- Adding a level to the `completed` set (`completed.update(level)`):
set semantics, so ids already present are not duplicated. -/
def addCompleted (completed : List String) (level : List String) : List String :=
  completed ++ level.filter (fun i => !completed.contains i)

/-- Outcome of `get_execution_order` lines 170-195: the level list, the
`Dependency cycle detected` ValueError with the remaining ids, or —
when the fuel runs out — divergence of the Python `while` loop. -/
inductive SchedResult where
  | ok (levels : List (List String))
  | cycleError (remaining : List String)
  | diverge
deriving DecidableEq

/-- The `while len(completed) < len(self._tasks)` loop of
`get_execution_order`, one fuel unit per iteration: take the ready
set; fail with the remaining ids when it is empty; otherwise record it
as a level and mark its members completed. -/
def runLevels : Nat → List STask → List String → List (List String) → SchedResult
  | 0, _, _, _ => .diverge
  | fuel + 1, tasks, completed, acc =>
    if completed.length < tasks.length then
      let ready := getReadyTasks tasks completed
      if ready.isEmpty then
        .cycleError ((tasks.filter (fun t => !completed.contains t.id)).map STask.id)
      else
        runLevels fuel tasks (addCompleted completed (ready.map STask.id))
          (acc ++ [ready.map STask.id])
    else .ok acc

/-- `get_execution_order()`: run the loop with `len(tasks) + 1` fuel.
A halting run of the Python loop strictly grows `completed` at every
iteration (otherwise the loop state repeats forever), so this fuel is
enough: `.diverge` here means the Python loop never terminates, which
`runLevels_stuck_forever` below makes precise for the graphs studied. -/
def getExecutionOrder (tasks : List STask) : SchedResult :=
  runLevels (tasks.length + 1) tasks [] []

/-- A task as registered with `DAGScheduler.add_task` by the skill-test
route: id, dependencies, and the handler closure mapping the rolling
context to the tool result (`Except.error` models the handler
raising). -/
structure ETask where
  id : String
  deps : List String
  handler : JValue → Except String JValue

/-- `run_task` inside `ParallelExecutor._execute_level` lines 305-326:
a failing handler is captured as `{"error": str(e)}` instead of
aborting the level. -/
def runTask (t : ETask) (ctx : JValue) : JValue :=
  match t.handler ctx with
  | .ok v => v
  | .error m => .obj [("error", .str m)]

/-- `_execute_level`: every task of the level runs against the same
context; results are keyed by task id. -/
def executeLevel (tasks : List ETask) (level : List String) (ctx : JValue) :
    List (String × JValue) :=
  level.filterMap (fun tid =>
    (tasks.find? (fun t => t.id = tid)).map (fun t => (tid, runTask t ctx)))

/-- Outcome of `ParallelExecutor.execute_all`. -/
inductive ExecAllResult where
  | ok (results : List (String × JValue))
  | cycleError (remaining : List String)
  | diverge

/-- `ParallelExecutor.execute_all(context)` lines 263-295: compute the
execution order first (so an order failure precedes any handler call),
then per level run the tasks, merge their results into the rolling
`results` dict, and re-expose them to the next level only under the
single context key `"results"`:  `context = {**context, "results":
results}`. -/
def executeAll (tasks : List ETask) (context : JValue) : ExecAllResult :=
  match getExecutionOrder (tasks.map (fun t => ⟨t.id, t.deps⟩)) with
  | .cycleError r => .cycleError r
  | .diverge => .diverge
  | .ok levels =>
    let start : List (String × JValue) × JValue := ([], context)
    let final := levels.foldl (fun (st : List (String × JValue) × JValue) level =>
      let results := upsertAll st.1 (executeLevel tasks level st.2)
      let ctx := match st.2 with
        | .obj fs => JValue.obj (upsert fs "results" (.obj results))
        | other => other
      (results, ctx)) start
    .ok final.1

/-- The context a task of level `n` actually receives: the state of the
rolling context after the first `n` levels ran (level numbering from
0).  Used to examine what a level-2 handler sees. -/
def contextAtLevel (tasks : List ETask) (context : JValue) (levels : List (List String))
    (n : Nat) : JValue :=
  ((levels.take n).foldl (fun (st : List (String × JValue) × JValue) level =>
    let results := upsertAll st.1 (executeLevel tasks level st.2)
    let ctx := match st.2 with
      | .obj fs => JValue.obj (upsert fs "results" (.obj results))
      | other => other
    (results, ctx)) ([], context)).2

/- ======================================================================
Skill test pipeline, from `app/api/routes/skills.py` (`test_skill`).
====================================================================== -/

/-- Python `path.lstrip("$.")`: strip every leading `$` or `.`. -/
def pyLstripDollarDot (s : String) : List Char :=
  s.data.dropWhile (fun c => c = '$' || c = '.')

/-- Python `str.split(".")` on a character list. -/
def pySplitDot (cs : List Char) (cur : List Char) : List String :=
  match cs with
  | [] => [String.mk cur.reverse]
  | c :: rest =>
    if c = '.' then String.mk cur.reverse :: pySplitDot rest []
    else pySplitDot rest (c :: cur)

/-- Python `str.startswith(prefix)` restricted to the one-character
prefixes the resolver uses. -/
def pyStartsWithChar (s : String) (c : Char) : Bool :=
  match s.data with
  | [] => false
  | d :: _ => d = c

/-- `resolve_value(path, context)` (skills.py lines 225-237): walk the
context dict segment by segment; any miss returns Python `None`. -/
def resolveValue (path : String) (context : JValue) : JValue :=
  if !pyStartsWithChar path '$' then .str path
  else
    (pySplitDot (pyLstripDollarDot path) []).foldl
      (fun cur part =>
        match cur with
        | .obj fs =>
          match jLook fs part with
          | some v => v
          | none => .null
        | _ => .null)
      context

/-- `resolve_params(mapping, context)` lines 239-248: resolve `$`-string
values, recurse into nested dicts, pass everything else through. -/
def resolveParams : List (String × JValue) → JValue → List (String × JValue)
  | [], _ => []
  | (k, .str s) :: rest, context =>
    (k, if pyStartsWithChar s '$' then resolveValue s context else .str s)
      :: resolveParams rest context
  | (k, .obj m) :: rest, context =>
    (k, .obj (resolveParams m context)) :: resolveParams rest context
  | (k, other) :: rest, context => (k, other) :: resolveParams rest context

/-- A workflow node of a skill (`workflow["nodes"]` entries). -/
structure WNode where
  id : String
  tool : String
  params_mapping : List (String × JValue)
  depends_on : List String

/-- The task registration loop of `test_skill` lines 250-273: each node
becomes a task whose handler resolves the node's `params_mapping`
against the received context and then executes the named tool.  The
tool executor (built with the request's database session) is modelled
by the `tools` oracle from tool name and resolved arguments
to the result. -/
def buildTasks (tools : String → JValue → Except String JValue)
    (nodes : List WNode) : List ETask :=
  nodes.map (fun n =>
    ⟨n.id, n.depends_on, fun ctx => tools n.tool (.obj (resolveParams n.params_mapping ctx))⟩)

/-- Outcome of `test_skill`: the projected result together with the
per-node outputs, the cycle failure (surfaced as `success=False` with
the ValueError text), or divergence of the scheduling loop. -/
inductive SkillTestR where
  | success (result : JValue) (tool_results : List (String × JValue))
  | failureCycle (remaining : List String)
  | diverge

/-- `test_skill` lines 202-302 after the permission gate: empty
workflows succeed immediately; otherwise build the DAG, execute it
with initial context `{"input": params}`, and project the output
mapping against `{"input": params, **exec_output}` (or return the raw
per-node map when no mapping is configured). -/
def testSkill (tools : String → JValue → Except String JValue)
    (nodes : List WNode) (output_mapping : List (String × JValue))
    (params : JValue) : SkillTestR :=
  if nodes.isEmpty then
    .success (.obj [("message", .str "Empty workflow"), ("input", params)]) []
  else
    match executeAll (buildTasks tools nodes) (.obj [("input", params)]) with
    | .cycleError r => .failureCycle r
    | .diverge => .diverge
    | .ok execOutput =>
      let finalResult :=
        if !output_mapping.isEmpty then
          JValue.obj (resolveParams output_mapping
            (.obj (upsertAll [("input", params)] execOutput)))
        else .obj execOutput
      .success finalResult execOutput

/- ======================================================================
Stream-capture tool-call accumulation, from
`app/llm/adapters/openai_adapter.py` (`chat`, stream-context branch,
and `_parse_tool_calls`).
====================================================================== -/

/-- The `function` part of a streamed tool-call delta: optional name
fragment and optional arguments fragment. -/
structure FnDelta where
  fname : Option String
  farguments : Option String
deriving DecidableEq

/-- One entry of a chunk's `tool_calls` delta list: position index,
optional id, optional function fragment (`tc.get("index", 0)`,
`tc.get("id")`, `tc.get("function")`). -/
structure ChunkTC where
  index : Nat
  idOpt : Option String
  function : Option FnDelta
deriving DecidableEq

/-- An accumulated entry of `tool_calls_dict`: the first chunk for the
index is stored wholesale, so the id is whatever that chunk carried. -/
structure AccTC where
  idOpt : Option String
  function : Option FnDelta
deriving DecidableEq

/-- The merge branch of the accumulation loop (openai_adapter.py lines
157-165): `ef = existing.setdefault("function", {})`, then concatenate
the name and arguments fragments.  The stored id is never touched. -/
def mergeTC (acc : AccTC) (c : ChunkTC) : AccTC :=
  match c.function with
  | none => acc
  | some f =>
    let ef := acc.function.getD ⟨none, none⟩
    let ef := match f.fname with
      | some n => { ef with fname := some (ef.fname.getD "" ++ n) }
      | none => ef
    let ef := match f.farguments with
      | some a => { ef with farguments := some (ef.farguments.getD "" ++ a) }
      | none => ef
    { acc with function := some ef }

/-- One iteration of the accumulation loop over `tool_calls_dict`
(lines 152-165): store the chunk wholesale for a new index, merge for
a known one; dict insertion order is preserved. -/
def upsertChunk (st : List (Nat × AccTC)) (c : ChunkTC) : List (Nat × AccTC) :=
  match st with
  | [] => [(c.index, ⟨c.idOpt, c.function⟩)]
  | (i, acc) :: rest =>
    if i = c.index then (i, mergeTC acc c) :: rest
    else (i, acc) :: upsertChunk rest c

/-- The whole accumulation over the flattened sequence of tool-call
deltas observed during streaming. -/
def accumToolCalls (cs : List ChunkTC) : List (Nat × AccTC) :=
  cs.foldl upsertChunk []

/-- Ascending insertion by index, modelling
`sorted(tool_calls_dict.keys())`. -/
def insertByIdx (p : Nat × AccTC) : List (Nat × AccTC) → List (Nat × AccTC)
  | [] => [p]
  | q :: rest => if p.1 ≤ q.1 then p :: q :: rest else q :: insertByIdx p rest

/-- Sort the accumulated entries by index. -/
def sortByIdx (st : List (Nat × AccTC)) : List (Nat × AccTC) :=
  st.foldr insertByIdx []

/-- The `json.loads`-or-fallback of `_parse_tool_calls` lines 105-109:
a parse failure yields the single-key object `{"raw": <string>}`.
`parseJson` is the standard library JSON parser as an oracle
(`none` models `json.JSONDecodeError`). -/
def parseOrRaw (parseJson : String → Option JValue) (s : String) : JValue :=
  match parseJson s with
  | some v => v
  | none => .obj [("raw", .str s)]

/-- `_parse_tool_calls` lines 100-116 applied to the accumulated
entries: missing id or name default to `""`, missing arguments default
to the string `"{}"`. -/
def parseToolCalls (parseJson : String → Option JValue) (tcs : List AccTC) :
    List ToolCallD :=
  tcs.map (fun tc =>
    let func := tc.function.getD ⟨none, none⟩
    let argsStr := func.farguments.getD "\x7b\x7d"
    ⟨tc.idOpt.getD "", func.fname.getD "", parseOrRaw parseJson argsStr⟩)

/-- The final tool calls composed by the stream-capture branch of
`chat` (lines 167-173): sort the accumulated dict by index and parse. -/
def finalToolCalls (parseJson : String → Option JValue) (cs : List ChunkTC) :
    List ToolCallD :=
  parseToolCalls parseJson ((sortByIdx (accumToolCalls cs)).map Prod.snd)

/-- Spec-side view: the id delivered by the first chunk at an index
(empty when that chunk carried none — later ids are ignored by the
code). -/
def specIdAt (cs : List ChunkTC) (idx : Nat) : String :=
  ((cs.find? (fun c => c.index = idx)).bind ChunkTC.idOpt).getD ""

/-- Spec-side view: the name fragments delivered at an index. -/
def nameDeltasAt (cs : List ChunkTC) (idx : Nat) : List String :=
  (cs.filter (fun c => c.index = idx)).filterMap (fun c => c.function.bind FnDelta.fname)

/-- Spec-side view: the argument fragments delivered at an index. -/
def argDeltasAt (cs : List ChunkTC) (idx : Nat) : List String :=
  (cs.filter (fun c => c.index = idx)).filterMap (fun c => c.function.bind FnDelta.farguments)

/-- Spec-side view: the accumulated arguments string at an index —
the concatenation of the delivered fragments, or the parser default
`"{}"` when none was ever delivered. -/
def specArgsStrAt (cs : List ChunkTC) (idx : Nat) : String :=
  match argDeltasAt cs idx with
  | [] => "\x7b\x7d"
  | ds => ds.foldl (· ++ ·) ""

/- ======================================================================
Validator, from `app/engine/validator.py`, and `validate_node` from
`app/engine/nfc_graph.py`.
====================================================================== -/

/-- `ComplianceLevel` severity levels. -/
inductive CLevel where
  | critical
  | high
  | medium
  | low
  | info
deriving DecidableEq

/-- A `ValidationIssue` (code, message, level, offending field path). -/
structure IssueM where
  code : String
  message : String
  level : CLevel
  fieldPath : Option String

/-- `ValidationResult.is_valid`: no critical or high issue. -/
def issuesValid (issues : List IssueM) : Bool :=
  !issues.any (fun i => i.level = .critical || i.level = .high)

/-- `ResultValidator.validate` (validator.py lines 135-183) for the
default instance (`required_fields = ["output", "agent"]`, no type
rules): non-dicts fail critically; each missing required field is a
high-level issue; the status is failed on critical or high issues,
warning on any other issue, else passed. -/
def resultValidatorValidate (data : JValue) : String × List IssueM :=
  match data with
  | .obj fs =>
    let issues := (["output", "agent"].filter (fun f => (jLook fs f).isNone)).map
      (fun f => (⟨"MISSING_FIELD", "Required field " ++ f ++ " is missing", .high, some f⟩ : IssueM))
    let status :=
      if issues.any (fun i => i.level = .critical) then "failed"
      else if issues.any (fun i => i.level = .high) then "failed"
      else if !issues.isEmpty then "warning"
      else "passed"
    (status, issues)
  | _ =>
    ("failed", [⟨"INVALID_TYPE", "Result must be a dictionary", .critical, none⟩])

/-- The three sensitive-data regular expressions of
`ComplianceChecker` (credit-card runs, Chinese id numbers, emails). -/
def sensitivePatterns : List String :=
  ["\\b\\d\x7b15,19\x7d\\b", "\\b\\d\x7b18\x7d[\\dXx]\\b",
   "\\b[A-Za-z0-9._%+-]+@[A-Za-z0-9.-]+\\.[A-Z|a-z]\x7b2,\x7d\\b"]

mutual

/-- `check_value` of `ComplianceChecker._check_sensitive_data` (lines
266-285): scan string leaves against the patterns (`re.search` is the
oracle `reSearch`), recording at most one high-level issue per string,
and recurse through dicts and lists building the field path. -/
def checkSensitiveValue (reSearch : String → String → Bool) :
    JValue → String → List IssueM
  | .str s, path =>
    if sensitivePatterns.any (fun p => reSearch p s) then
      [⟨"SENSITIVE_DATA", "Potential sensitive data detected at " ++ path, .high, some path⟩]
    else []
  | .obj fs, path => checkSensitiveFields reSearch fs path
  | .arr xs, path => checkSensitiveItems reSearch xs path 0
  | _, _ => []

/-- Recursion of `check_value` through a dict's entries. -/
def checkSensitiveFields (reSearch : String → String → Bool) :
    List (String × JValue) → String → List IssueM
  | [], _ => []
  | (k, v) :: rest, path =>
    checkSensitiveValue reSearch v (if path = "" then k else path ++ "." ++ k) ++
      checkSensitiveFields reSearch rest path

/-- Recursion of `check_value` through a list's items. -/
def checkSensitiveItems (reSearch : String → String → Bool) :
    List JValue → String → Nat → List IssueM
  | [], _, _ => []
  | v :: rest, path, i =>
    checkSensitiveValue reSearch v (path ++ "[" ++ toString i ++ "]") ++
      checkSensitiveItems reSearch rest path (i + 1)

end

/-- `ComplianceChecker.validate` (lines 218-256) for the default
instance (no custom rules): the sensitive-data scan plus the status
aggregation. -/
def complianceCheckerValidate (reSearch : String → String → Bool) (data : JValue) :
    String × List IssueM :=
  let issues := checkSensitiveValue reSearch data ""
  let status :=
    if issues.any (fun i => i.level = .critical || i.level = .high) then "failed"
    else if !issues.isEmpty then "warning"
    else "passed"
  (status, issues)

mutual

/-- `OutputSanitizer.sanitize` (lines 305-322): mask every string leaf
(`re.sub` over the mask patterns is the oracle `maskString`). -/
def sanitizeValue (maskString : String → String) : JValue → JValue
  | .str s => .str (maskString s)
  | .obj fs => .obj (sanitizeFields maskString fs)
  | .arr xs => .arr (sanitizeItems maskString xs)
  | other => other

/-- Recursion of `sanitize` through a dict. -/
def sanitizeFields (maskString : String → String) :
    List (String × JValue) → List (String × JValue)
  | [] => []
  | (k, v) :: rest => (k, sanitizeValue maskString v) :: sanitizeFields maskString rest

/-- Recursion of `sanitize` through a list. -/
def sanitizeItems (maskString : String → String) : List JValue → List JValue
  | [] => []
  | v :: rest => sanitizeValue maskString v :: sanitizeItems maskString rest

end

/-- The dict returned by `Validator.validate` (lines 343-383): the
sanitized output, the aggregate status — `"passed"` iff both
sub-validators report no critical/high issue, else `"failed"`; note
that no `"warning"` is ever produced here — and the concatenated
issue list. -/
structure ValidateOut where
  validated_output : JValue
  validation_status : String
  validation_issues : List IssueM

/-- `Validator.validate` for the default `Validator()` instance used
by `validate_node` (`default_validator`). -/
def validatorValidate (reSearch : String → String → Bool)
    (maskString : String → String) (execution_result : JValue) : ValidateOut :=
  let rv := resultValidatorValidate execution_result
  let cc := complianceCheckerValidate reSearch execution_result
  let sanitized := sanitizeValue maskString execution_result
  let all_passed := issuesValid rv.2 && issuesValid cc.2
  ⟨sanitized, if all_passed then "passed" else "failed", rv.2 ++ cc.2⟩

/-- The loop body of `validate_node` (nfc_graph.py lines 242-289):
skip unsuccessful results; validate structured (`dict`) results via
`default_validator`, collect their issues, raise the overall status to
`failed`, or to `warning` from `passed`, and substitute the sanitized
output. -/
def validateNodeGo (reSearch : String → String → Bool)
    (maskString : String → String) :
    List ToolResultM → String → List IssueM →
    List ToolResultM × String × List IssueM
  | [], overall, issues => ([], overall, issues)
  | r :: rest, overall, issues =>
    if !r.success then
      let out := validateNodeGo reSearch maskString rest overall issues
      (r :: out.1, out.2)
    else
      match r.result.getD (.obj []) with
      | .obj fs =>
        let v := validatorValidate reSearch maskString (.obj fs)
        let issues' := issues ++ v.validation_issues
        let overall' :=
          if v.validation_status = "failed" then "failed"
          else if v.validation_status = "warning" && overall = "passed" then "warning"
          else overall
        let out := validateNodeGo reSearch maskString rest overall' issues'
        ({ r with result := some v.validated_output } :: out.1, out.2)
      | _ =>
        let out := validateNodeGo reSearch maskString rest overall issues
        (r :: out.1, out.2)

/-- `validate_node`: fold the loop body over the iteration's tool
results starting from `overall_status = "passed"` and no issues;
returns the rewritten results, the aggregate `validation_status` and
the collected `validation_issues`. -/
def validateNode (reSearch : String → String → Bool)
    (maskString : String → String) (tool_results : List ToolResultM) :
    List ToolResultM × String × List IssueM :=
  validateNodeGo reSearch maskString tool_results "passed" []

/- ======================================================================
SSE stream generator, from `app/api/routes/chat.py`
(`nfc_stream_generator`).
====================================================================== -/

/-- The envelope passed to the outer `json.dumps` for a `message`
frame: `{"event": "message", "data": <payload>}` (the inner
JSON-string encoding of the payload is elided; no claim depends on
it). -/
def messageFrame (content : String) : JValue :=
  .obj [("event", .str "message"), ("data", .obj [("content", .str content)])]

/-- The envelope the `except` branch (chat.py lines 787-794) passes to
`json.dumps`: `{"type": "error", "data": {"code": "stream_error",
"message": str(e)}}` — note the key `type`, not `event`. -/
def errorFramePayload (msg : String) : JValue :=
  .obj [("type", .str "error"),
        ("data", .obj [("code", .str "stream_error"), ("message", .str msg)])]

/-- The terminator frame `{"event": "done", "data": "{}"}`. -/
def doneFramePayload : JValue :=
  .obj [("event", .str "done"), ("data", .str "\x7b\x7d")]

/-- An item of the per-turn queue, restricted to what the error-path
claim needs: an adapter chunk carrying optional content, or the error
pushed by the failing producer (which the consumer re-raises). -/
inductive QItem where
  | chunk (content : Option String)
  | errItem (msg : String)

/-- The frame/persistence behaviour of `nfc_stream_generator`
restricted to content chunks and producer errors: chunks emit
`message` frames and accumulate the assistant content; queue
exhaustion runs the persistence block (lines 773-783, only with a
conversation and a database session) and emits `done`; a producer
error jumps to the `except` branch (lines 787-795), emitting the
error frame then `done` and skipping persistence entirely.  Returns
the emitted frames and the persisted assistant message, if any. -/
def runStream (persistEnabled : Bool) :
    List QItem → String → List JValue × Option (String × String)
  | [], acc =>
    ([doneFramePayload], if persistEnabled then some ("assistant", acc) else none)
  | .chunk c :: rest, acc =>
    let frames := match c with
      | some s => [messageFrame s]
      | none => []
    let out := runStream persistEnabled rest (acc ++ c.getD "")
    (frames ++ out.1, out.2)
  | .errItem m :: _, _ => ([errorFramePayload m, doneFramePayload], none)

/- ======================================================================
Derived folds, spec-side views and concrete fixtures used by the
theorems below.
====================================================================== -/

/-- `filter_tools_by_permission(user, tools)` from
`app/core/permissions.py` lines 101-103. -/
def filterToolsByPermission (user : Option EmUser) (tools : List EmTool) :
    List EmTool :=
  tools.filter (fun t => check_tool_permission user t)

/-- N statistics updates in sequence, one per dispatch outcome
`(latency, success)` — the per-tool effect of N calls through
`ToolExecutor.execute` with a session. -/
def dispatchStats (tool : EmTool) (obs : List (ℚ × Bool)) : EmTool :=
  obs.foldl (fun t ob => updateStatistics true t ob.1 ob.2) tool

/-- An adapter world whose external call succeeds or fails according
to the given flag: drives the per-dispatch outcome in the statistics
theorem. -/
def adapterOutcome (success : Bool) : Adapters :=
  ⟨fun _ _ _ => .ok (.obj []),
   fun _ _ => .ok (.obj []),
   fun _ _ => .ok (.obj []),
   fun _ _ _ _ => if success then .ok (.obj [("data", .str "ok")]) else .error "boom"⟩

/-- N calls of `ToolExecutor.execute` against a one-tool catalog,
threading the session's catalog through; call `i` observes latency
`obs[i].1` and its adapter outcome is `obs[i].2`. -/
def executeStatsFold (tool : EmTool) (obs : List (ℚ × Bool)) :
    Option (List EmTool) :=
  obs.foldl (fun sess ob =>
    (toolExecutorExecute [] sess (adapterOutcome ob.2) tool.name (.obj []) ob.1).sessionAfter)
    (some [tool])

/-- Association lookup on the accumulated `tool_calls_dict`. -/
def lookupIdx : List (Nat × AccTC) → Nat → Option AccTC
  | [], _ => none
  | (i, acc) :: rest, idx => if i = idx then some acc else lookupIdx rest idx

/-- The id the final `ToolCall` gets from an accumulated entry. -/
def accId (acc : AccTC) : String := acc.idOpt.getD ""

/-- The name the final `ToolCall` gets from an accumulated entry. -/
def accName (acc : AccTC) : String := (acc.function.getD ⟨none, none⟩).fname.getD ""

/-- The arguments string `_parse_tool_calls` reads from an accumulated
entry (default `"{}"`). -/
def accArgsStr (acc : AccTC) : String :=
  (acc.function.getD ⟨none, none⟩).farguments.getD "\x7b\x7d"

/-- Spec-side view: the concatenated name deltas at an index. -/
def specNameAt (cs : List ChunkTC) (idx : Nat) : String :=
  (nameDeltasAt cs idx).foldl (· ++ ·) ""

/-- Merge a run of streamed fragments into an optional accumulated
string, the way the accumulation loop does (`ef.get(key, "") +
fragment`): the result is `none` only when nothing was ever
delivered. -/
def mergeOpt : Option String → List String → Option String
  | o, [] => o
  | o, d :: rest => mergeOpt (some (o.getD "" ++ d)) rest

/-- Demo tool oracle for the spec's skill scenario: `lookup` returns
`{"id": "X"}`; `score` returns `{"score": 0.9}` exactly when it is
given the id `"X"` and `{"score": 0}` otherwise. -/
def demoSkillTools : String → JValue → Except String JValue := fun name args =>
  if name = "lookup" then .ok (.obj [("id", .str "X")])
  else if name = "score" then
    match args with
    | .obj fs =>
      match jLook fs "id" with
      | some (.str s) => .ok (.obj [("score", .num (if s = "X" then 9 / 10 else 0))])
      | _ => .ok (.obj [("score", .num 0)])
    | _ => .ok (.obj [("score", .num 0)])
  else .error "Tool not found"

/-- The two-node workflow of the spec's skill test: `s1` runs
`lookup`; `s2` depends on `s1` and feeds `$.s1.id` to `score`. -/
def demo5Nodes : List WNode :=
  [⟨"s1", "lookup", [], []⟩,
   ⟨"s2", "score", [("id", .str "$.s1.id")], ["s1"]⟩]

/-- The skill input `{"name": "Acme"}`. -/
def demo5Input : JValue := .obj [("name", .str "Acme")]

/-- An adapter world that answers every call successfully. -/
def demoAdapters : Adapters :=
  ⟨fun _ _ _ => .ok (.obj [("prediction", .num 1)]),
   fun _ _ => .ok (.obj []),
   fun _ _ => .ok (.obj []),
   fun _ _ _ _ => .ok (.obj [("data", .str "ok")])⟩

/-- The spec's `priv_tool`: an active external-api catalog tool with
visibility internal and allowed roles `{admin}`. -/
def privTool : EmTool :=
  { name := "priv_tool", tool_type := "external_api",
    service_config := [("url", .str "http://svc.example/api")],
    status := "active", visibility := "internal",
    allowed_departments := [], allowed_roles := ["admin"],
    created_by := none, call_count := 0, avg_latency_ms := 0, success_rate := 1 }

/-- A non-superuser with roles `{viewer}` and no department. -/
def viewerUser : EmUser :=
  { id := "u1", is_superuser := false, department := none, roles := ["viewer"] }

/-- Agent state with one pending call to `priv_tool`. -/
def c1State : NFCState :=
  { messages := [], input := "q",
    pending_tool_calls := [⟨"c1", "priv_tool", .obj []⟩],
    tool_results := [], final_response := none, reasoning_content := none,
    iteration := 1, max_iterations := 10, status := "tool_calling" }

/-- A fresh catalog tool for the statistics witness. -/
def c8DemoTool : EmTool :=
  { name := "stats_tool", tool_type := "external_api",
    service_config := [("url", .str "http://svc.example/api")],
    status := "active", visibility := "public",
    allowed_departments := [], allowed_roles := [],
    created_by := none, call_count := 0, avg_latency_ms := 0, success_rate := 1 }

/-- The scheduler input of the divergence bug: a two-node cycle next
to one dependency-free task. -/
def c4MixedTasks : List STask := [⟨"t1", []⟩, ⟨"a", ["b"]⟩, ⟨"b", ["a"]⟩]

/-- The spec's pure two-node cycle. -/
def c4PureCycle : List STask := [⟨"a", ["b"]⟩, ⟨"b", ["a"]⟩]

/-- The pure cycle as registered tasks with arbitrary handlers. -/
def c4PureCycleTasks (hs : String → JValue → Except String JValue) : List ETask :=
  [⟨"a", ["b"], hs "a"⟩, ⟨"b", ["a"], hs "b"⟩]

/-- A dependency-free task next to a task whose `depends_on` names an
unregistered id. -/
def c10Tasks : List STask := [⟨"t0", []⟩, ⟨"t1", ["ghost"]⟩]

/-- A JSON-parse oracle that accepts nothing: consistent with the
counterexample fragment `{bad`, which is not valid JSON. -/
def demoParse : String → Option JValue := fun _ => none

/-- Two streamed deltas at position 0: the first carries only a name
fragment and no id; the second delivers the id `call_9`, the rest of
the name, and an argument fragment that is not valid JSON. -/
def demoChunks : List ChunkTC :=
  [⟨0, none, some ⟨some "my", none⟩⟩,
   ⟨0, some "call_9", some ⟨some "tool", some "\x7bbad"⟩⟩]

/-- Fresh agent state one think away from an iteration cap of 1. -/
def c7DemoState : NFCState :=
  { messages := [], input := "q", pending_tool_calls := [], tool_results := [],
    final_response := none, reasoning_content := none,
    iteration := 0, max_iterations := 1, status := "thinking" }

/-- A gateway response that both calls a tool and carries assistant
content. -/
def c7DemoResp : LLMResponseD :=
  { content := some "Let me check", reasoning_content := none,
    tool_calls := [⟨"c1", "t", .null⟩], finish_reason := none }

/- ======================================================================
Shared helper lemmas.
====================================================================== -/

/-- A `ToolExecutionError` message is never the bare string
`"forbidden"` (it always starts with `Tool '...' execution failed:`). -/
theorem toolExecError_ne_forbidden (name msg : String) :
    toolExecError name msg ≠ "forbidden" := by
  intro h
  have hlen := congrArg String.length h
  rw [toolExecError, String.length_append, String.length_append,
    String.length_append] at hlen
  have e1 : ("Tool \x27" : String).length = 6 := rfl
  have e2 : ("\x27 execution failed: " : String).length = 20 := rfl
  have e3 : ("forbidden" : String).length = 9 := rfl
  omega

/-- When an iteration of the scheduling loop leaves the completed set
unchanged while tasks remain, the loop never halts: the Python
`get_execution_order` spins forever and, in particular, never raises
the cycle error. -/
theorem runLevels_stuck_forever (tasks : List STask) (completed : List String)
    (hlt : completed.length < tasks.length)
    (hne : (getReadyTasks tasks completed).isEmpty = false)
    (hfix : addCompleted completed ((getReadyTasks tasks completed).map STask.id) =
      completed) :
    ∀ (fuel : Nat) (acc : List (List String)),
      runLevels fuel tasks completed acc = .diverge := by
  intro fuel
  induction fuel with
  | zero => intro acc; rfl
  | succ n ih =>
    intro acc
    simp only [runLevels, if_pos hlt, hne, Bool.false_eq_true, if_false, hfix]
    exact ih _

/- ======================================================================
Claim theorems.
====================================================================== -/

/-- C3: for every (user, tool-or-skill) pair the permission decision
equals the spec's first-match rule list — public true; anonymous
false; superuser true; private iff `created_by` equals the user's id;
internal iff the department is allowed or the roles intersect the
allowed roles; default false — and, since `specMay` consumes only the
projected fields of the rules, the decision is a pure function of
exactly those fields. -/
theorem c3_permission_first_match :
    ∀ (u : Option EmUser) (t : EmTool) (s : EmSkill),
      check_tool_permission u t =
        specMay (u.map userFields) t.visibility t.created_by
          t.allowed_departments t.allowed_roles ∧
      check_skill_permission u s =
        specMay (u.map userFields) s.visibility s.created_by
          s.allowed_departments s.allowed_roles := by
  have contains_ne_nil : ∀ (l : List String) (a : String),
      l.contains a = true → l.isEmpty = false := by
    intro l a h
    cases l with
    | nil => simp [List.contains] at h
    | cons x xs => rfl
  have any_ne_nil : ∀ (roles l : List String),
      roles.any (l.contains ·) = true → l.isEmpty = false := by
    intro roles l h
    rw [List.any_eq_true] at h
    obtain ⟨r, _, hr⟩ := h
    exact contains_ne_nil l r hr
  have internal_eq : ∀ (ads ars : List String) (dept : Option String)
      (roles : List String),
      (if (!ads.isEmpty &&
            (match dept with
             | some d => ads.contains d
             | none => false)) = true then true
       else if (!ars.isEmpty && roles.any (ars.contains ·)) = true then true
       else false) =
      ((match dept with
        | some d => ads.contains d
        | none => false) || roles.any (ars.contains ·)) := by
    intro ads ars dept roles
    set b := (match dept with
      | some d => ads.contains d
      | none => false) with hb
    cases hB : b with
    | true =>
      have : ads.isEmpty = false := by
        cases dept with
        | none => simp [hb] at hB
        | some d => exact contains_ne_nil ads d (by rw [hb] at hB; exact hB)
      simp [this, hB]
    | false =>
      cases hD : roles.any (ars.contains ·) with
      | true => simp [any_ne_nil roles ars hD, hB, hD]
      | false => simp [hB, hD]
  intro u t s
  constructor
  · cases u with
    | none => simp [check_tool_permission, specMay]
    | some usr =>
      simp only [check_tool_permission, specMay, userFields, Option.map_some']
      by_cases hpub : t.visibility = "public"
      · simp [hpub]
      · by_cases hsup : usr.is_superuser = true
        · simp [hpub, hsup]
        · by_cases hpriv : t.visibility = "private"
          · simp [hpub, hsup, hpriv]
          · by_cases hint : t.visibility = "internal"
            · simp only [hpub, hsup, hint, if_false, if_true,
                Bool.false_eq_true]
              simpa using internal_eq t.allowed_departments t.allowed_roles
                usr.department usr.roles
            · simp [hpub, hsup, hpriv, hint]
  · cases u with
    | none => simp [check_skill_permission, specMay]
    | some usr =>
      simp only [check_skill_permission, specMay, userFields, Option.map_some']
      by_cases hpub : s.visibility = "public"
      · simp [hpub]
      · by_cases hsup : usr.is_superuser = true
        · simp [hpub, hsup]
        · by_cases hpriv : s.visibility = "private"
          · simp [hpub, hsup, hpriv]
          · by_cases hint : s.visibility = "internal"
            · simp only [hpub, hsup, hint, if_false, if_true,
                Bool.false_eq_true]
              simpa using internal_eq s.allowed_departments s.allowed_roles
                usr.department usr.roles
            · simp [hpub, hsup, hpriv, hint]

/-- C9 (amended): a producer error during a streamed turn makes the
generator emit the message frames already due, then the error frame —
whose envelope is `{"type": "error", "data": {"code": "stream_error",
"message": <msg>}}`, with the key `type` rather than the documented
`event` — then the `done` frame, and persist nothing. -/
theorem c9_error_frame_then_done :
    (∀ (persistEnabled : Bool) (pre : List (Option String)) (msg : String)
        (tail : List QItem) (acc : String),
      runStream persistEnabled (pre.map QItem.chunk ++ QItem.errItem msg :: tail) acc =
        ((pre.filterMap id).map messageFrame ++
          [errorFramePayload msg, doneFramePayload], none)) ∧
    (∀ msg : String, errorFramePayload msg =
      .obj [("type", .str "error"),
            ("data", .obj [("code", .str "stream_error"), ("message", .str msg)])]) := by
  constructor
  · intro pe pre msg tail
    induction pre with
    | nil => intro acc; rfl
    | cons c rest ih =>
      intro acc
      cases c <;> simp [runStream, ih]
  · intro msg; rfl

/-- C9 counterexample: at a concrete erroring stream the error frame's
envelope keys are `type` and `data`; the documented `event` key is
absent, refuting the claimed frame shape (while `done` still follows
and nothing is persisted). -/
theorem c9_counterexample :
    runStream true [QItem.chunk (some "Hi"), QItem.errItem "boom"] "" =
      ([messageFrame "Hi", errorFramePayload "boom", doneFramePayload], none) ∧
    keysOf (errorFramePayload "boom") = ["type", "data"] ∧
    ¬ ("event" ∈ keysOf (errorFramePayload "boom")) := by
  refine ⟨rfl, rfl, ?_⟩
  decide

/-- C7 (amended): think routes to `execute_tools` exactly when
`status = tool_calling` and `iteration < max_iterations`, otherwise to
`respond`; after validate the loop returns to think exactly when
`iteration < max_iterations`; and when a tool-calling think hits the
cap the graph transitions to respond with `status = done` while
`final_response` is left unchanged (the capped turn's assistant
content stays only in the message list). -/
theorem c7_edge_routing :
    (∀ st : NFCState, shouldContinue st = "execute_tools" ↔
      (st.status = "tool_calling" ∧ st.iteration < st.max_iterations)) ∧
    (∀ st : NFCState, shouldContinue st = "execute_tools" ∨
      shouldContinue st = "respond") ∧
    (∀ st : NFCState, afterValidation st = "think" ↔
      st.iteration < st.max_iterations) ∧
    (∀ st : NFCState, afterValidation st = "think" ∨ afterValidation st = "respond") ∧
    (∀ (st : NFCState) (resp : LLMResponseD), resp.tool_calls ≠ [] →
      st.max_iterations ≤ st.iteration + 1 →
      shouldContinue (thinkNode st resp) = "respond" ∧
      (respondNode (thinkNode st resp)).status = "done" ∧
      (respondNode (thinkNode st resp)).final_response = st.final_response) := by
  refine ⟨?_, ?_, ?_, ?_, ?_⟩
  · intro st
    unfold shouldContinue
    split_ifs with h1 h2
    · simp only [Bool.and_eq_true, decide_eq_true_eq] at h1
      simp [h1]
    · constructor
      · intro h; exact absurd h (by decide)
      · intro h
        simp only [Bool.and_eq_true, decide_eq_true_eq] at h1
        exact absurd h h1
    · constructor
      · intro h; exact absurd h (by decide)
      · intro h
        simp only [Bool.and_eq_true, decide_eq_true_eq] at h1
        exact absurd h h1
  · intro st
    unfold shouldContinue
    split_ifs <;> simp
  · intro st
    unfold afterValidation
    split_ifs with h
    · simp [h]
    · constructor
      · intro hc; exact absurd hc (by decide)
      · intro hc; exact absurd hc h
  · intro st
    unfold afterValidation
    split_ifs <;> simp
  · intro st resp hcalls hcap
    have hne : resp.tool_calls.isEmpty = false := by
      cases hl : resp.tool_calls with
      | nil => exact absurd hl hcalls
      | cons x xs => rfl
    have hth : thinkNode st resp =
        { st with
          pending_tool_calls := resp.tool_calls,
          messages := st.messages ++ [responseToMessage resp],
          status := "tool_calling",
          iteration := st.iteration + 1,
          reasoning_content := resp.reasoning_content } := by
      unfold thinkNode
      rw [hne]
      rfl
    refine ⟨?_, ?_, ?_⟩
    · rw [hth]
      unfold shouldContinue
      have hnlt : ¬ (st.iteration + 1 < st.max_iterations) := by omega
      simp [hnlt]
    · rw [hth]; rfl
    · rw [hth]; rfl

/-- C7 witness: the cap-reached clause of `c7_edge_routing` applied to
a concrete state one think away from a cap of 1 and a tool-calling
response. -/
theorem c7_edge_routing_witness :
    shouldContinue (thinkNode c7DemoState c7DemoResp) = "respond" ∧
    (respondNode (thinkNode c7DemoState c7DemoResp)).status = "done" ∧
    (respondNode (thinkNode c7DemoState c7DemoResp)).final_response =
      c7DemoState.final_response :=
  c7_edge_routing.2.2.2.2 c7DemoState c7DemoResp
    (by simp [c7DemoResp]) (by simp [c7DemoState])

/-- C7 counterexample: at the cap the graph does transition to respond,
but `final_response` stays `none` instead of holding the last known
assistant content `"Let me check"`, refuting the claim's final
clause. -/
theorem c7_counterexample :
    shouldContinue (thinkNode c7DemoState c7DemoResp) = "respond" ∧
    lastAssistantContent (respondNode (thinkNode c7DemoState c7DemoResp)).messages =
      some "Let me check" ∧
    (respondNode (thinkNode c7DemoState c7DemoResp)).final_response = none ∧
    (respondNode (thinkNode c7DemoState c7DemoResp)).final_response ≠
      some "Let me check" := by
  refine ⟨rfl, rfl, rfl, ?_⟩
  decide

/-- C10 (amended): a dangling `depends_on` reference leaves its task
forever unready, exactly like a cycle — but the scheduler reaches the
`Dependency cycle detected` error only when nothing is initially
ready, i.e. when every registered task lists at least one dependency;
then it fails listing all task ids and, since `execute_all` computes
the order first, no handler runs (the outcome is the same for every
handler assignment).  When a dependency-free task coexists with the
dangling reference, the scheduling loop instead spins forever and
never raises. -/
theorem c10_dangling_dependency :
    (∀ tasks : List STask, tasks ≠ [] → (∀ t ∈ tasks, t.deps ≠ []) →
      getExecutionOrder tasks = .cycleError (tasks.map STask.id)) ∧
    (∀ (ts : List ETask) (ctx : JValue), ts ≠ [] → (∀ t ∈ ts, t.deps ≠ []) →
      executeAll ts ctx = .cycleError (ts.map ETask.id)) ∧
    (∀ fuel : Nat, runLevels fuel c10Tasks [] [] = .diverge) := by
  have hready : ∀ tasks : List STask, (∀ t ∈ tasks, t.deps ≠ []) →
      getReadyTasks tasks [] = [] := by
    intro tasks hdeps
    rw [getReadyTasks, List.filter_eq_nil_iff]
    intro t ht
    have hd := hdeps t ht
    cases he : t.deps with
    | nil => exact absurd he hd
    | cons d ds => simp [isReady, he]
  have horder : ∀ tasks : List STask, tasks ≠ [] → (∀ t ∈ tasks, t.deps ≠ []) →
      getExecutionOrder tasks = .cycleError (tasks.map STask.id) := by
    intro tasks hne hdeps
    cases tasks with
    | nil => exact absurd rfl hne
    | cons t ts =>
      show runLevels (ts.length + 1 + 1) (t :: ts) [] [] = _
      rw [runLevels]
      have hlt : ([] : List String).length < (t :: ts).length := by
        simp
      rw [if_pos hlt, hready (t :: ts) hdeps]
      simp
  refine ⟨horder, ?_, ?_⟩
  · intro ts ctx hne hdeps
    have h := horder (ts.map (fun t => ⟨t.id, t.deps⟩)) (by
        cases ts with
        | nil => exact absurd rfl hne
        | cons t rest => simp)
      (by
        intro t' ht'
        rw [List.mem_map] at ht'
        obtain ⟨t, ht, rfl⟩ := ht'
        exact hdeps t ht)
    rw [executeAll, h]
    simp [List.map_map]
  · intro fuel
    cases fuel with
    | zero => rfl
    | succ n =>
      have hstep : runLevels (n + 1) c10Tasks [] [] =
          runLevels n c10Tasks ["t0"] [["t0"]] := rfl
      rw [hstep]
      exact runLevels_stuck_forever c10Tasks ["t0"] (by decide) (by decide)
        (by decide) n _

/-- C10 witness: a single task with a dangling dependency makes the
scheduler raise the cycle error listing that task. -/
theorem c10_dangling_dependency_witness :
    getExecutionOrder [⟨"x", ["ghost"]⟩] = .cycleError ["x"] := by
  have h := c10_dangling_dependency.1 [⟨"x", ["ghost"]⟩] (by decide) (by decide)
  simpa using h

/-- C10 counterexample: with a dependency-free task `t0` next to the
dangling-reference task `t1`, the scheduler does not raise the cycle
error at all — the canonical run exhausts its fuel at the fixed point
`completed = {t0}`, where `t0` is ready again and the completed set no
longer grows. -/
theorem c10_counterexample :
    getExecutionOrder c10Tasks = .diverge ∧
    getExecutionOrder c10Tasks ≠ .cycleError ["t1"] ∧
    getExecutionOrder c10Tasks ≠ .cycleError ["t0", "t1"] ∧
    getReadyTasks c10Tasks ["t0"] = [⟨"t0", []⟩] ∧
    addCompleted ["t0"] ["t0"] = ["t0"] :=
  ⟨rfl, by decide, by decide, rfl, rfl⟩

/-- C4: the dependency-cycle error is indeed raised — before any
handler runs, whatever the handlers are — for the spec's pure cycle
`a → b → a`; but a cyclic graph that also contains a dependency-free
task makes the scheduling loop spin forever (the ready set always
contains the already-completed free task, so it is never empty and the
completed set never grows), raising nothing. -/
theorem c4_cycle_detection :
    (∀ fuel : Nat, runLevels fuel c4MixedTasks [] [] = .diverge) ∧
    getExecutionOrder c4PureCycle = .cycleError ["a", "b"] ∧
    (∀ (hs : String → JValue → Except String JValue) (ctx : JValue),
      executeAll (c4PureCycleTasks hs) ctx = .cycleError ["a", "b"]) := by
  refine ⟨?_, rfl, ?_⟩
  · intro fuel
    cases fuel with
    | zero => rfl
    | succ n =>
      have hstep : runLevels (n + 1) c4MixedTasks [] [] =
          runLevels n c4MixedTasks ["t1"] [["t1"]] := rfl
      rw [hstep]
      exact runLevels_stuck_forever c4MixedTasks ["t1"] (by decide) (by decide)
        (by decide) n _
  · intro hs ctx
    rfl

mutual

/-- Every issue the sensitive-data scan records is high-level. -/
theorem sensValue_high (r : String → String → Bool) :
    ∀ (v : JValue) (p : String), ∀ i ∈ checkSensitiveValue r v p, i.level = CLevel.high
  | .str s, p => by
    intro i hi
    rw [checkSensitiveValue] at hi
    split at hi
    · rw [List.mem_singleton] at hi
      subst hi
      rfl
    · simp at hi
  | .obj fs, p => by
    intro i hi
    rw [checkSensitiveValue] at hi
    exact sensFields_high r fs p i hi
  | .arr xs, p => by
    intro i hi
    rw [checkSensitiveValue] at hi
    exact sensItems_high r xs p 0 i hi
  | .null, p => by intro i hi; simp [checkSensitiveValue] at hi
  | .num q, p => by intro i hi; simp [checkSensitiveValue] at hi
  | .jbool b, p => by intro i hi; simp [checkSensitiveValue] at hi

/-- Dict recursion of `sensValue_high`. -/
theorem sensFields_high (r : String → String → Bool) :
    ∀ (fs : List (String × JValue)) (p : String),
      ∀ i ∈ checkSensitiveFields r fs p, i.level = CLevel.high
  | [], p => by intro i hi; simp [checkSensitiveFields] at hi
  | (k, v) :: rest, p => by
    intro i hi
    rw [checkSensitiveFields, List.mem_append] at hi
    cases hi with
    | inl h => exact sensValue_high r v _ i h
    | inr h => exact sensFields_high r rest p i h

/-- List recursion of `sensValue_high`. -/
theorem sensItems_high (r : String → String → Bool) :
    ∀ (xs : List JValue) (p : String) (j : Nat),
      ∀ i ∈ checkSensitiveItems r xs p j, i.level = CLevel.high
  | [], p, j => by intro i hi; simp [checkSensitiveItems] at hi
  | v :: rest, p, j => by
    intro i hi
    rw [checkSensitiveItems, List.mem_append] at hi
    cases hi with
    | inl h => exact sensValue_high r v _ i h
    | inr h => exact sensItems_high r rest p (j + 1) i h

end

/-- Every issue the default `ResultValidator` records on a dict input
is high-level (a missing required field). -/
theorem resultValidator_issues_high (fs : List (String × JValue)) :
    ∀ i ∈ (resultValidatorValidate (.obj fs)).2, i.level = CLevel.high := by
  intro i hi
  simp only [resultValidatorValidate] at hi
  rw [List.mem_map] at hi
  obtain ⟨f, _, rfl⟩ := hi
  rfl

/-- Every issue `Validator.validate` collects on a dict input is
high-level. -/
theorem validator_issues_high (r : String → String → Bool) (m : String → String)
    (fs : List (String × JValue)) :
    ∀ i ∈ (validatorValidate r m (.obj fs)).validation_issues,
      i.level = CLevel.high := by
  intro i hi
  simp only [validatorValidate] at hi
  rw [List.mem_append] at hi
  cases hi with
  | inl h => exact resultValidator_issues_high fs i h
  | inr h =>
    simp only [complianceCheckerValidate] at h
    exact sensValue_high r (.obj fs) "" i h

/-- `Validator.validate` reports `"failed"` exactly when one of its
collected issues is critical or high, and `"passed"` otherwise — it
never reports `"warning"`. -/
theorem validator_status_iff (r : String → String → Bool) (m : String → String)
    (x : JValue) :
    (validatorValidate r m x).validation_status =
      (if (validatorValidate r m x).validation_issues.any
          (fun i => i.level = .critical || i.level = .high) then "failed"
       else "passed") := by
  have hswap : ∀ c : Bool,
      (if (!c) = true then "passed" else "failed") =
        (if c = true then "failed" else "passed") := by
    intro c; cases c <;> rfl
  simp only [validatorValidate, issuesValid, List.any_append, ← Bool.not_or]
  exact hswap _

/-- Invariant of the `validate_node` loop: starting from a state whose
collected issues are all high or critical and whose running status is
`failed` exactly when one of them is critical or high, the final state
keeps both properties. -/
theorem validateNodeGo_spec (r : String → String → Bool) (m : String → String) :
    ∀ (rs : List ToolResultM) (overall : String) (issues : List IssueM),
      (∀ i ∈ issues, i.level = CLevel.high ∨ i.level = CLevel.critical) →
      overall = (if issues.any (fun i => i.level = .critical || i.level = .high)
        then "failed" else "passed") →
      (∀ i ∈ (validateNodeGo r m rs overall issues).2.2,
        i.level = CLevel.high ∨ i.level = CLevel.critical) ∧
      (validateNodeGo r m rs overall issues).2.1 =
        (if (validateNodeGo r m rs overall issues).2.2.any
            (fun i => i.level = .critical || i.level = .high)
         then "failed" else "passed") := by
  intro rs
  induction rs with
  | nil =>
    intro overall issues hhigh hov
    exact ⟨hhigh, hov⟩
  | cons rr rest ih =>
    intro overall issues hhigh hov
    cases hsucc : rr.success with
    | false =>
      have hstep : validateNodeGo r m (rr :: rest) overall issues =
          (rr :: (validateNodeGo r m rest overall issues).1,
           (validateNodeGo r m rest overall issues).2) := by
        rw [validateNodeGo, hsucc]
        rfl
      rw [hstep]
      exact ih overall issues hhigh hov
    | true =>
      cases hres : rr.result.getD (.obj []) with
      | obj fs =>
        have hvhigh := validator_issues_high r m fs
        have hvstat := validator_status_iff r m (.obj fs)
        have hhigh' : ∀ i ∈ issues ++ (validatorValidate r m (.obj fs)).validation_issues,
            i.level = CLevel.high ∨ i.level = CLevel.critical := by
          intro i hi
          rw [List.mem_append] at hi
          cases hi with
          | inl h => exact hhigh i h
          | inr h => exact Or.inl (hvhigh i h)
        have hstep : validateNodeGo r m (rr :: rest) overall issues =
            ((⟨rr.tool_call_id, rr.tool_name,
                some (validatorValidate r m (.obj fs)).validated_output,
                rr.success, rr.error⟩ : ToolResultM) ::
              (validateNodeGo r m rest
                (if (validatorValidate r m (.obj fs)).validation_status = "failed"
                 then "failed"
                 else if (validatorValidate r m (.obj fs)).validation_status = "warning" &&
                     overall = "passed" then "warning"
                 else overall)
                (issues ++ (validatorValidate r m (.obj fs)).validation_issues)).1,
             (validateNodeGo r m rest
                (if (validatorValidate r m (.obj fs)).validation_status = "failed"
                 then "failed"
                 else if (validatorValidate r m (.obj fs)).validation_status = "warning" &&
                     overall = "passed" then "warning"
                 else overall)
                (issues ++ (validatorValidate r m (.obj fs)).validation_issues)).2) := by
          rw [validateNodeGo, hsucc, hres]
          rfl
        rw [hstep]
        cases hany : (validatorValidate r m (.obj fs)).validation_issues.any
            (fun i => i.level = .critical || i.level = .high) with
        | true =>
          have hfail : (validatorValidate r m (.obj fs)).validation_status = "failed" := by
            rw [hvstat, hany]
            rfl
          have hov' : "failed" =
              (if (issues ++ (validatorValidate r m (.obj fs)).validation_issues).any
                  (fun i => i.level = .critical || i.level = .high)
               then "failed" else "passed") := by
            rw [List.any_append, hany]
            simp
          rw [hfail]
          exact ih _ _ hhigh' hov'
        | false =>
          have hpass : (validatorValidate r m (.obj fs)).validation_status = "passed" := by
            rw [hvstat, hany]
            rfl
          have hov' : overall =
              (if (issues ++ (validatorValidate r m (.obj fs)).validation_issues).any
                  (fun i => i.level = .critical || i.level = .high)
               then "failed" else "passed") := by
            rw [List.any_append, hany, Bool.or_false]
            exact hov
          rw [hpass]
          exact ih _ _ hhigh' hov'
      | null =>
        have hstep : validateNodeGo r m (rr :: rest) overall issues =
            (rr :: (validateNodeGo r m rest overall issues).1,
             (validateNodeGo r m rest overall issues).2) := by
          rw [validateNodeGo, hsucc, hres]
          rfl
        rw [hstep]
        exact ih overall issues hhigh hov
      | str s =>
        have hstep : validateNodeGo r m (rr :: rest) overall issues =
            (rr :: (validateNodeGo r m rest overall issues).1,
             (validateNodeGo r m rest overall issues).2) := by
          rw [validateNodeGo, hsucc, hres]
          rfl
        rw [hstep]
        exact ih overall issues hhigh hov
      | num q =>
        have hstep : validateNodeGo r m (rr :: rest) overall issues =
            (rr :: (validateNodeGo r m rest overall issues).1,
             (validateNodeGo r m rest overall issues).2) := by
          rw [validateNodeGo, hsucc, hres]
          rfl
        rw [hstep]
        exact ih overall issues hhigh hov
      | jbool b =>
        have hstep : validateNodeGo r m (rr :: rest) overall issues =
            (rr :: (validateNodeGo r m rest overall issues).1,
             (validateNodeGo r m rest overall issues).2) := by
          rw [validateNodeGo, hsucc, hres]
          rfl
        rw [hstep]
        exact ih overall issues hhigh hov
      | arr xs =>
        have hstep : validateNodeGo r m (rr :: rest) overall issues =
            (rr :: (validateNodeGo r m rest overall issues).1,
             (validateNodeGo r m rest overall issues).2) := by
          rw [validateNodeGo, hsucc, hres]
          rfl
        rw [hstep]
        exact ih overall issues hhigh hov

/-- C6: after the validate node runs over the iteration's tool
results, the aggregate `validation_status` is `failed` if any
critical- or high-level issue was recorded, else `warning` if any
lower-level issue was recorded, else `passed` (the middle branch never
fires because the default pipeline records only high-level issues). -/
theorem c6_validation_status (reSearch : String → String → Bool)
    (maskString : String → String) (results : List ToolResultM) :
    (validateNode reSearch maskString results).2.1 =
      (if (validateNode reSearch maskString results).2.2.any
          (fun i => i.level = .critical || i.level = .high) then "failed"
       else if (validateNode reSearch maskString results).2.2.any
          (fun i => i.level = .medium || i.level = .low || i.level = .info)
       then "warning"
       else "passed") := by
  have h := validateNodeGo_spec reSearch maskString results "passed" []
    (by intro i hi; simp at hi) (by simp)
  rw [validateNode]
  rw [h.2]
  cases hany : (validateNodeGo reSearch maskString results "passed" []).2.2.any
      (fun i => i.level = .critical || i.level = .high) with
  | true => simp
  | false =>
    have hempty : (validateNodeGo reSearch maskString results "passed" []).2.2 = [] := by
      cases hl : (validateNodeGo reSearch maskString results "passed" []).2.2 with
      | nil => rfl
      | cons i rest =>
        exfalso
        have hmem : i ∈ (validateNodeGo reSearch maskString results "passed" []).2.2 := by
          rw [hl]; exact List.mem_cons_self i rest
        have hlev := h.1 i hmem
        have : (validateNodeGo reSearch maskString results "passed" []).2.2.any
            (fun j => j.level = .critical || j.level = .high) = true := by
          rw [List.any_eq_true]
          refine ⟨i, hmem, ?_⟩
          cases hlev with
          | inl hh => simp [hh]
          | inr hc => simp [hc]
        rw [hany] at this
        cases this
    rw [hempty]
    simp

/-- The statistics update is the running-average formula
`(old * n + new) / (n + 1)` for all three counters, on success and
failure alike (the `old_count = 0` branches coincide with the
formula). -/
theorem updateStatistics_formula (t : EmTool) (l : ℚ) (s : Bool) :
    updateStatistics true t l s =
      { t with
        call_count := t.call_count + 1,
        avg_latency_ms := (t.avg_latency_ms * t.call_count + l) / (t.call_count + 1),
        success_rate := (t.success_rate * t.call_count + (if s then 1 else 0)) /
          (t.call_count + 1) } := by
  cases t with
  | mk nm ty cfg st vis ad ar cb cc avg sr =>
    rw [updateStatistics]
    by_cases h : cc > 0
    · simp only [Bool.not_true, Bool.false_eq_true, if_false, if_pos h,
        EmTool.mk.injEq]
      repeat' apply And.intro
      all_goals first
        | rfl
        | (push_cast; try ring)
    · have h0 : cc = 0 := by omega
      subst h0
      simp only [Bool.not_true, Bool.false_eq_true, if_false, if_neg h,
        EmTool.mk.injEq]
      repeat' apply And.intro
      all_goals first
        | rfl
        | (push_cast; try simp)

/-- The statistics update touches only the three counters. -/
theorem updateStatistics_preserves (t : EmTool) (l : ℚ) (s : Bool) :
    (updateStatistics true t l s).name = t.name ∧
    (updateStatistics true t l s).status = t.status ∧
    (updateStatistics true t l s).tool_type = t.tool_type ∧
    (updateStatistics true t l s).service_config = t.service_config := by
  rw [updateStatistics_formula]
  exact ⟨rfl, rfl, rfl, rfl⟩

/-- Closed form of N consecutive statistics updates: the counters
aggregate the observation list exactly. -/
theorem dispatchStats_closed :
    ∀ (obs : List (ℚ × Bool)) (t : EmTool), obs ≠ [] →
      dispatchStats t obs =
        { t with
          call_count := t.call_count + obs.length,
          avg_latency_ms := (t.avg_latency_ms * t.call_count + (obs.map Prod.fst).sum) /
            (t.call_count + obs.length),
          success_rate := (t.success_rate * t.call_count +
              ((obs.filter (fun ob => ob.2)).length : ℚ)) /
            (t.call_count + obs.length) } := by
  intro obs
  induction obs with
  | nil => intro t h; exact absurd rfl h
  | cons ob rest ih =>
    intro t _
    have hstep : dispatchStats t (ob :: rest) =
        dispatchStats (updateStatistics true t ob.1 ob.2) rest := rfl
    rw [hstep, updateStatistics_formula]
    cases rest with
    | nil =>
      cases t with
      | mk nm ty cfg st vis ad ar cb cc avg sr =>
        cases hb : ob.2 <;>
          · simp only [dispatchStats, List.foldl_nil, List.map_cons, List.map_nil,
              List.sum_cons, List.sum_nil, List.filter_cons, List.filter_nil, hb,
              List.length_cons, List.length_nil, EmTool.mk.injEq]
            repeat' apply And.intro
            all_goals first
              | rfl
              | (push_cast; try simp; try ring)
    | cons ob2 rest2 =>
      rw [ih _ (by simp)]
      cases t with
      | mk nm ty cfg st vis ad ar cb cc avg sr =>
        have h1 : ((cc : ℚ) + 1) ≠ 0 := by positivity
        cases hb : ob.2 <;>
          · simp only [hb, List.map_cons, List.sum_cons, List.length_cons,
              List.filter_cons, Bool.false_eq_true, if_false, if_true,
              EmTool.mk.injEq, add_zero]
            repeat' apply And.intro
            all_goals first
              | rfl
              | omega
              | (push_cast
                 try rw [div_mul_cancel₀ _ h1]
                 try congr 1 <;> ring)

/-- Each call of `ToolExecutor.execute` against a one-tool session
catalog applies exactly one statistics update to that tool — with
success mirroring the dispatch outcome — and makes the external
adapter call. -/
theorem executeStep_session (t : EmTool) (nm : String) (b : Bool) (l : ℚ)
    (args : JValue) (hnm : t.name = nm) (hst : t.status = "active")
    (hty : t.tool_type = "external_api")
    (hurl : pyTruthy (jLook t.service_config "url") = true) :
    (toolExecutorExecute [] (some [t]) (adapterOutcome b) nm args l).sessionAfter =
      some [updateStatistics true t l b] ∧
    (toolExecutorExecute [] (some [t]) (adapterOutcome b) nm args l).trace =
      ["external_api.call"] := by
  have hfind : getToolFromSession (some [t]) nm = some t := by
    simp [getToolFromSession, hnm, hst]
  have hdisp : dispatchTool (adapterOutcome b) t args =
      ((if b then Except.ok (.obj [("data", .str "ok")]) else Except.error "boom"),
       ["external_api.call"]) := by
    rw [dispatchTool, hty]
    simp only [String.reduceEq, if_false, if_true, hurl, Bool.not_true,
      Bool.false_eq_true, adapterOutcome]
    try rfl
  rw [toolExecutorExecute]
  simp only [List.find?_nil, hfind, hdisp]
  cases b <;> simp [hnm]

/-- Folding N executor calls over the one-tool catalog yields the
N-fold statistics update of that tool. -/
theorem executeStatsFold_spec :
    ∀ (obs : List (ℚ × Bool)) (t : EmTool) (nm : String),
      t.name = nm → t.status = "active" → t.tool_type = "external_api" →
      pyTruthy (jLook t.service_config "url") = true →
      obs.foldl (fun sess ob =>
          (toolExecutorExecute [] sess (adapterOutcome ob.2) nm (.obj []) ob.1).sessionAfter)
        (some [t]) = some [dispatchStats t obs] := by
  intro obs
  induction obs with
  | nil => intro t nm _ _ _ _; rfl
  | cons ob rest ih =>
    intro t nm hnm hst hty hurl
    have hstep := executeStep_session t nm ob.2 ob.1 (.obj []) hnm hst hty hurl
    have hfold : (ob :: rest).foldl (fun sess ob =>
        (toolExecutorExecute [] sess (adapterOutcome ob.2) nm (.obj []) ob.1).sessionAfter)
        (some [t]) = rest.foldl (fun sess ob =>
        (toolExecutorExecute [] sess (adapterOutcome ob.2) nm (.obj []) ob.1).sessionAfter)
        (some [updateStatistics true t ob.1 ob.2]) := by
      rw [List.foldl_cons, hstep.1]
    rw [hfold]
    have hpres := updateStatistics_preserves t ob.1 ob.2
    exact ih (updateStatistics true t ob.1 ob.2) nm (hpres.1.trans hnm)
      (hpres.2.1.trans hst) (hpres.2.2.1.trans hty)
      (by rw [hpres.2.2.2]; exact hurl)

/-- C8: a fresh catalog tool dispatched N times through the executor
with a session ends with `call_count = N`, `avg_latency_ms` the
arithmetic mean of the N observed latencies, and `success_rate` the
fraction of successful dispatches; each counter is maintained by the
running-average update `(old * n + new) / (n + 1)`, applied on success
and failure outcomes alike. -/
theorem c8_statistics :
    ∀ (obs : List (ℚ × Bool)) (t : EmTool),
      t.call_count = 0 → t.status = "active" → t.tool_type = "external_api" →
      pyTruthy (jLook t.service_config "url") = true → obs ≠ [] →
      (executeStatsFold t obs =
        some [{ t with
          call_count := obs.length,
          avg_latency_ms := (obs.map Prod.fst).sum / obs.length,
          success_rate := ((obs.filter (fun ob => ob.2)).length : ℚ) / obs.length }]) ∧
      (∀ (t' : EmTool) (l : ℚ) (s : Bool),
        updateStatistics true t' l s =
          { t' with
            call_count := t'.call_count + 1,
            avg_latency_ms := (t'.avg_latency_ms * t'.call_count + l) /
              (t'.call_count + 1),
            success_rate := (t'.success_rate * t'.call_count + (if s then 1 else 0)) /
              (t'.call_count + 1) }) := by
  intro obs t hcc hst hty hurl hne
  refine ⟨?_, fun t' l s => updateStatistics_formula t' l s⟩
  rw [executeStatsFold, executeStatsFold_spec obs t t.name rfl hst hty hurl,
    dispatchStats_closed obs t hne, hcc]
  norm_num

/-- C8 witness: two dispatches (latency 10 success, latency 30
failure) leave `call_count = 2`, `avg_latency_ms = 20` and
`success_rate = 1/2`. -/
theorem c8_statistics_witness :
    executeStatsFold c8DemoTool [(10, true), (30, false)] =
      some [{ c8DemoTool with
        call_count := 2, avg_latency_ms := 20, success_rate := 1 / 2 }] := by
  have h := (c8_statistics [(10, true), (30, false)] c8DemoTool rfl rfl rfl rfl
    (by simp)).1
  rw [h]
  norm_num

/-- C1 (amended): `execute_tools_node` performs no permission check.
Every pending tool call goes to the executor, which in this path is
built without a database session and with an empty built-in map, so
each call fails with `Tool '<name>' execution failed: Tool not found`
— never with `forbidden` — and the node continues to `validating`
with the pending list cleared.  Permission filtering exists only on
catalog listings (`filter_tools_by_permission`); an executor holding a
session runs an active catalog tool, adapter call included, even when
`may(user, tool)` is false. -/
theorem c1_no_invocation_permission_check :
    (∀ (adapters : Adapters) (st : NFCState),
      (executeToolsNode adapters st).tool_results =
        st.pending_tool_calls.map (fun c =>
          ⟨c.id, c.name, none, false, some (toolExecError c.name "Tool not found")⟩) ∧
      (executeToolsNode adapters st).status = "validating" ∧
      (executeToolsNode adapters st).pending_tool_calls = []) ∧
    (∀ (adapters : Adapters) (st : NFCState) (r : ToolResultM),
      r ∈ (executeToolsNode adapters st).tool_results →
        r.error ≠ some "forbidden") ∧
    (∀ (user : Option EmUser) (t : EmTool) (adapters : Adapters) (args : JValue)
        (l : ℚ),
      t.status = "active" → t.tool_type = "external_api" →
      pyTruthy (jLook t.service_config "url") = true →
      check_tool_permission user t = false →
      (toolExecutorExecute [] (some [t]) adapters t.name args l).trace =
        ["external_api.call"]) ∧
    (∀ (user : Option EmUser) (tools : List EmTool) (t : EmTool),
      t ∈ filterToolsByPermission user tools ↔
        t ∈ tools ∧ check_tool_permission user t = true) := by
  have hnode : ∀ (adapters : Adapters) (st : NFCState),
      (executeToolsNode adapters st).tool_results =
        st.pending_tool_calls.map (fun c =>
          ⟨c.id, c.name, none, false, some (toolExecError c.name "Tool not found")⟩) := by
    intro adapters st
    show (st.pending_tool_calls.map _).map Prod.fst = _
    rw [List.map_map]
    rfl
  refine ⟨fun adapters st => ⟨hnode adapters st, rfl, rfl⟩, ?_, ?_, ?_⟩
  · intro adapters st r hr
    rw [hnode adapters st, List.mem_map] at hr
    obtain ⟨c, _, rfl⟩ := hr
    intro h
    exact toolExecError_ne_forbidden c.name "Tool not found" (by injection h)
  · intro user t adapters args l hst hty hurl _
    have hfind : getToolFromSession (some [t]) t.name = some t := by
      simp [getToolFromSession, hst]
    have hdt : dispatchTool adapters t args =
        (adapters.callExternal ((jLook t.service_config "url").getD .null)
          ((jLook t.service_config "method").getD (.str "POST"))
          ((jLook t.service_config "headers").getD (.obj [])) args,
         ["external_api.call"]) := by
      rw [dispatchTool, hty]
      simp [hurl, String.reduceEq]
    rw [toolExecutorExecute]
    simp only [List.find?_nil, hfind, hdt]
    cases adapters.callExternal ((jLook t.service_config "url").getD .null)
        ((jLook t.service_config "method").getD (.str "POST"))
        ((jLook t.service_config "headers").getD (.obj [])) args <;> rfl
  · intro user tools t
    rw [filterToolsByPermission, List.mem_filter]

/-- C1 witness: the session-holding executor's adapter call and the
never-`forbidden` error, at the spec's `priv_tool` / viewer pair. -/
theorem c1_no_invocation_permission_check_witness :
    (toolExecutorExecute [] (some [privTool]) demoAdapters "priv_tool"
      (.obj []) 5).trace = ["external_api.call"] ∧
    (⟨"c1", "priv_tool", none, false,
      some (toolExecError "priv_tool" "Tool not found")⟩ : ToolResultM).error ≠
      some "forbidden" := by
  constructor
  · exact c1_no_invocation_permission_check.2.2.1 (some viewerUser) privTool
      demoAdapters (.obj []) 5 rfl rfl rfl rfl
  · exact c1_no_invocation_permission_check.2.1 demoAdapters c1State _
      (List.mem_singleton_self _)

/-- C1 counterexample: the model names `priv_tool`, which the viewer
may not access; the graph path yields `success=false` with a
`Tool not found` message — not `forbidden` — while an executor with a
session executes the tool outright, external adapter call included. -/
theorem c1_counterexample :
    check_tool_permission (some viewerUser) privTool = false ∧
    (executeToolsNode demoAdapters c1State).tool_results =
      [⟨"c1", "priv_tool", none, false,
        some (toolExecError "priv_tool" "Tool not found")⟩] ∧
    (executeToolsNode demoAdapters c1State).tool_results.map ToolResultM.error ≠
      [some "forbidden"] ∧
    (toolExecutorExecute [] (some [privTool]) demoAdapters "priv_tool"
      (.obj []) 5).trace = ["external_api.call"] ∧
    (toolExecutorExecute [] (some [privTool]) demoAdapters "priv_tool"
      (.obj []) 5).result = .ok (.obj [("data", .str "ok")]) := by
  refine ⟨rfl, rfl, ?_, rfl, rfl⟩
  decide

/-- C2: evaluation of the spec's two-node skill.  The level-2 context
actually handed to `s2`'s handler has top-level keys `input` and
`results` — not one key per completed node — so `$.s1.id` resolves to
null, `score` is called with `{"id": null}`, and the skill returns
`{"result": 0}` instead of the claimed `{"result": 0.9}`. -/
theorem c2_skill_context_eval :
    testSkill demoSkillTools demo5Nodes [("result", .str "$.s2.score")] demo5Input =
      .success (.obj [("result", .num 0)])
        [("s1", .obj [("id", .str "X")]), ("s2", .obj [("score", .num 0)])] ∧
    contextAtLevel (buildTasks demoSkillTools demo5Nodes)
        (.obj [("input", demo5Input)]) [["s1"], ["s1", "s2"]] 1 =
      .obj [("input", demo5Input),
            ("results", .obj [("s1", .obj [("id", .str "X")])])] ∧
    keysOf (contextAtLevel (buildTasks demoSkillTools demo5Nodes)
        (.obj [("input", demo5Input)]) [["s1"], ["s1", "s2"]] 1) =
      ["input", "results"] ∧
    resolveParams [("id", .str "$.s1.id")]
        (contextAtLevel (buildTasks demoSkillTools demo5Nodes)
          (.obj [("input", demo5Input)]) [["s1"], ["s1", "s2"]] 1) =
      [("id", JValue.null)] ∧
    getExecutionOrder ((buildTasks demoSkillTools demo5Nodes).map
        (fun t => ⟨t.id, t.deps⟩)) = .ok [["s1"], ["s1", "s2"]] ∧
    (0 : ℚ) ≠ 9 / 10 := by
  refine ⟨rfl, rfl, rfl, rfl, rfl, by norm_num⟩

/-- Merging a delta never touches the stored id. -/
theorem mergeTC_idOpt (acc : AccTC) (c : ChunkTC) :
    (mergeTC acc c).idOpt = acc.idOpt := by
  cases hf : c.function with
  | none => rw [mergeTC, hf]
  | some f => rw [mergeTC, hf]

/-- The stored name after one merge: unchanged without a name delta,
extended by string concatenation with one. -/
theorem mergeTC_fnName (acc : AccTC) (c : ChunkTC) :
    ((mergeTC acc c).function.getD ⟨none, none⟩).fname =
      (match c.function.bind FnDelta.fname with
       | none => (acc.function.getD ⟨none, none⟩).fname
       | some n => some ((acc.function.getD ⟨none, none⟩).fname.getD "" ++ n)) := by
  cases hf : c.function with
  | none => rw [mergeTC, hf]; rfl
  | some f =>
    cases hn : f.fname <;> cases ha : f.farguments <;>
      simp [mergeTC, hf, hn, ha]

/-- The stored arguments string after one merge. -/
theorem mergeTC_fnArgs (acc : AccTC) (c : ChunkTC) :
    ((mergeTC acc c).function.getD ⟨none, none⟩).farguments =
      (match c.function.bind FnDelta.farguments with
       | none => (acc.function.getD ⟨none, none⟩).farguments
       | some a => some ((acc.function.getD ⟨none, none⟩).farguments.getD "" ++ a)) := by
  cases hf : c.function with
  | none => rw [mergeTC, hf]; rfl
  | some f =>
    cases hn : f.fname <;> cases ha : f.farguments <;>
      simp [mergeTC, hf, hn, ha]

/-- Folding merges never touches the stored id. -/
theorem foldl_mergeTC_idOpt (ds : List ChunkTC) :
    ∀ acc : AccTC, (ds.foldl mergeTC acc).idOpt = acc.idOpt := by
  induction ds with
  | nil => intro acc; rfl
  | cons c rest ih =>
    intro acc
    rw [List.foldl_cons, ih, mergeTC_idOpt]

/-- Folding merges accumulates the name deltas of the folded chunks. -/
theorem foldl_mergeTC_fnName (ds : List ChunkTC) :
    ∀ acc : AccTC,
      ((ds.foldl mergeTC acc).function.getD ⟨none, none⟩).fname =
        mergeOpt ((acc.function.getD ⟨none, none⟩).fname)
          (ds.filterMap (fun c => c.function.bind FnDelta.fname)) := by
  induction ds with
  | nil => intro acc; rfl
  | cons c rest ih =>
    intro acc
    rw [List.foldl_cons, ih, List.filterMap_cons]
    cases hd : c.function.bind FnDelta.fname with
    | none => rw [mergeTC_fnName, hd]
    | some n => rw [mergeTC_fnName, hd, mergeOpt]

/-- Folding merges accumulates the argument deltas of the folded
chunks. -/
theorem foldl_mergeTC_fnArgs (ds : List ChunkTC) :
    ∀ acc : AccTC,
      ((ds.foldl mergeTC acc).function.getD ⟨none, none⟩).farguments =
        mergeOpt ((acc.function.getD ⟨none, none⟩).farguments)
          (ds.filterMap (fun c => c.function.bind FnDelta.farguments)) := by
  induction ds with
  | nil => intro acc; rfl
  | cons c rest ih =>
    intro acc
    rw [List.foldl_cons, ih, List.filterMap_cons]
    cases hd : c.function.bind FnDelta.farguments with
    | none => rw [mergeTC_fnArgs, hd]
    | some n => rw [mergeTC_fnArgs, hd, mergeOpt]

/-- `mergeOpt` starting from a present string is a left fold of
concatenations. -/
theorem mergeOpt_some (ds : List String) :
    ∀ s : String, mergeOpt (some s) ds = some (ds.foldl (· ++ ·) s) := by
  induction ds with
  | nil => intro s; rfl
  | cons d rest ih =>
    intro s
    rw [mergeOpt, Option.getD_some, ih]
    rfl

/-- The stored-or-default projection of a chunk's name delta. -/
theorem storeFnName (c : ChunkTC) :
    ((⟨c.idOpt, c.function⟩ : AccTC).function.getD ⟨none, none⟩).fname =
      c.function.bind FnDelta.fname := by
  cases c.function <;> rfl

/-- The stored-or-default projection of a chunk's arguments delta. -/
theorem storeFnArgs (c : ChunkTC) :
    ((⟨c.idOpt, c.function⟩ : AccTC).function.getD ⟨none, none⟩).farguments =
      c.function.bind FnDelta.farguments := by
  cases c.function <;> rfl

/-- `find?` returns the head of the filtered list. -/
theorem find?_eq_head_filter (p : ChunkTC → Bool) (l : List ChunkTC) :
    l.find? p = (l.filter p).head? := by
  induction l with
  | nil => rfl
  | cons c rest ih =>
    cases hp : p c with
    | true =>
      rw [List.find?_cons_of_pos _ hp, List.filter_cons_of_pos hp]
      rfl
    | false =>
      rw [List.find?_cons_of_neg _ (by simp [hp]),
        List.filter_cons_of_neg (by simp [hp]), ih]

/-- Lookup after one `tool_calls_dict` upsert: the entry at the
chunk's own index is stored or merged; other indices are untouched. -/
theorem lookup_upsert (st : List (Nat × AccTC)) (c : ChunkTC) (idx : Nat) :
    lookupIdx (upsertChunk st c) idx =
      (if c.index = idx then
        (match lookupIdx st idx with
         | some acc => some (mergeTC acc c)
         | none => some ⟨c.idOpt, c.function⟩)
       else lookupIdx st idx) := by
  induction st with
  | nil => by_cases h : c.index = idx <;> simp [upsertChunk, lookupIdx, h]
  | cons p rest ih =>
    obtain ⟨i, acc⟩ := p
    by_cases hic : i = c.index
    · subst hic
      by_cases hidx : c.index = idx
      · subst hidx
        simp [upsertChunk, lookupIdx]
      · simp [upsertChunk, lookupIdx, hidx]
    · by_cases hidx : i = idx
      · subst hidx
        have hci : ¬ c.index = i := fun h => hic h.symm
        simp [upsertChunk, lookupIdx, hic, hci]
      · simp [upsertChunk, lookupIdx, hic, hidx, ih]

/-- The accumulated `tool_calls_dict` entry at an index equals the
first chunk observed there, wholesale, with every later chunk at that
index merged into it in order. -/
theorem lookupIdx_accum (cs : List ChunkTC) :
    ∀ (st : List (Nat × AccTC)) (idx : Nat),
      lookupIdx (cs.foldl upsertChunk st) idx =
        (match lookupIdx st idx with
         | some acc => some ((cs.filter (fun c => c.index = idx)).foldl mergeTC acc)
         | none =>
           match cs.filter (fun c => c.index = idx) with
           | [] => none
           | c :: rest => some (rest.foldl mergeTC ⟨c.idOpt, c.function⟩)) := by
  induction cs with
  | nil =>
    intro st idx
    cases h : lookupIdx st idx <;> simp [h]
  | cons c cs' ih =>
    intro st idx
    rw [List.foldl_cons, ih (upsertChunk st c) idx, lookup_upsert]
    by_cases hc : c.index = idx
    · rw [if_pos hc, List.filter_cons, if_pos (by simp [hc])]
      cases h : lookupIdx st idx with
      | some acc => rfl
      | none => rfl
    · rw [if_neg hc, List.filter_cons, if_neg (by simp [hc])]

/-- Reading `mergeOpt` from an absent accumulated string: the default
when no fragment was delivered, the concatenation otherwise. -/
theorem mergeOpt_getD_none (ds : List String) (d0 : String) :
    (mergeOpt none ds).getD d0 =
      (match ds with
       | [] => d0
       | l => l.foldl (· ++ ·) "") := by
  cases ds with
  | nil => rfl
  | cons d rest =>
    simp only [mergeOpt, Option.getD_none, mergeOpt_some, Option.getD_some]
    rfl

/-- Reading `mergeOpt` from a present accumulated string: the
concatenation of that string with the fragments. -/
theorem mergeOpt_getD_some (s : String) (ds : List String) (d0 : String) :
    (mergeOpt (some s) ds).getD d0 = (s :: ds).foldl (· ++ ·) "" := by
  rw [mergeOpt_some, Option.getD_some, List.foldl_cons, String.empty_append]

/-- C5 (amended): in stream-capture mode the gateway accumulates, per
tool-call index, the id as delivered by the FIRST chunk observed at
that index — empty when that chunk carried none; an id delivered by a
later chunk at the same index is ignored — the name as the
concatenation of the streamed name deltas, and the arguments string as
the concatenation of the streamed argument deltas (defaulting to
"\x7b\x7d" when none was delivered).  The final tool calls are exactly
the accumulated entries sorted by index with these three projections,
the arguments field being the parsed JSON when the accumulated string
parses and otherwise the single-key object with key "raw" — not
"_raw_args" — holding the raw accumulated string. -/
theorem c5_stream_accumulation (parseJson : String → Option JValue)
    (cs : List ChunkTC) (idx : Nat) (acc : AccTC)
    (h : lookupIdx (accumToolCalls cs) idx = some acc) :
    (accId acc = specIdAt cs idx ∧
     accName acc = specNameAt cs idx ∧
     accArgsStr acc = specArgsStrAt cs idx) ∧
    finalToolCalls parseJson cs =
      ((sortByIdx (accumToolCalls cs)).map Prod.snd).map
        (fun a => ⟨accId a, accName a, parseOrRaw parseJson (accArgsStr a)⟩) ∧
    (∀ s v, parseJson s = some v → parseOrRaw parseJson s = v) ∧
    (∀ s, parseJson s = none →
      parseOrRaw parseJson s = .obj [("raw", .str s)]) := by
  cases hfil : cs.filter (fun c => c.index = idx) with
  | nil =>
    have hnone : lookupIdx (accumToolCalls cs) idx = none := by
      simp only [accumToolCalls, lookupIdx_accum, hfil, lookupIdx]
    rw [h] at hnone
    exact absurd hnone (by simp)
  | cons c rest =>
    have hsome : lookupIdx (accumToolCalls cs) idx =
        some (rest.foldl mergeTC ⟨c.idOpt, c.function⟩) := by
      simp only [accumToolCalls, lookupIdx_accum, hfil, lookupIdx]
    rw [h] at hsome
    have ha : acc = rest.foldl mergeTC ⟨c.idOpt, c.function⟩ :=
      Option.some.inj hsome
    refine ⟨⟨?_, ?_, ?_⟩, ?_, ?_, ?_⟩
    · have hfind : cs.find? (fun x => x.index = idx) = some c := by
        rw [find?_eq_head_filter, hfil]
        rfl
      rw [ha]
      simp only [accId, specIdAt, hfind, foldl_mergeTC_idOpt]
      rfl
    · rw [ha]
      simp only [accName, specNameAt, nameDeltasAt, hfil, List.filterMap_cons]
      rw [foldl_mergeTC_fnName, storeFnName]
      cases hc : c.function.bind FnDelta.fname with
      | none =>
        rw [mergeOpt_getD_none]
        cases rest.filterMap (fun x => x.function.bind FnDelta.fname) <;> rfl
      | some n => rw [mergeOpt_getD_some]
    · rw [ha]
      simp only [accArgsStr, specArgsStrAt, argDeltasAt, hfil,
        List.filterMap_cons]
      rw [foldl_mergeTC_fnArgs, storeFnArgs]
      cases hc : c.function.bind FnDelta.farguments with
      | none => rw [mergeOpt_getD_none]
      | some a => rw [mergeOpt_getD_some]
    · rfl
    · intro s v hs
      simp only [parseOrRaw, hs]
    · intro s hs
      simp only [parseOrRaw, hs]

/-- C5 witness: in the two-chunk demo stream the accumulated entry at
index 0 stores no id (the id arrived only in the second chunk), the
merged name `mytool` and the merged argument string `\x7bbad`; the
accumulation theorem applies with its lookup hypothesis discharged by
evaluation. -/
theorem c5_stream_accumulation_witness :
    lookupIdx (accumToolCalls demoChunks) 0 =
      some ⟨none, some ⟨some "mytool", some "\x7bbad"⟩⟩ ∧
    (accId ⟨none, some ⟨some "mytool", some "\x7bbad"⟩⟩ =
        specIdAt demoChunks 0 ∧
     accName ⟨none, some ⟨some "mytool", some "\x7bbad"⟩⟩ =
        specNameAt demoChunks 0 ∧
     accArgsStr ⟨none, some ⟨some "mytool", some "\x7bbad"⟩⟩ =
        specArgsStrAt demoChunks 0) :=
  ⟨rfl, (c5_stream_accumulation demoParse demoChunks 0
    ⟨none, some ⟨some "mytool", some "\x7bbad"⟩⟩ rfl).1⟩

/-- C5 counterexample: the id `call_9` is delivered by the second
chunk at index 0, yet the final tool call has id `""` — the id is not
"set once from the first chunk that delivers it" — and the
unparseable accumulated argument string is wrapped under the key
`raw`, not the documented `_raw_args`. -/
theorem c5_counterexample :
    finalToolCalls demoParse demoChunks =
      [⟨"", "mytool", .obj [("raw", .str "\x7bbad")]⟩] ∧
    demoChunks.filterMap ChunkTC.idOpt = ["call_9"] ∧
    (finalToolCalls demoParse demoChunks).map ToolCallD.id ≠ ["call_9"] ∧
    (finalToolCalls demoParse demoChunks).map (fun tc => keysOf tc.arguments) ≠
      [["_raw_args"]] :=
  ⟨rfl, rfl, by decide, by decide⟩

end Nebula
